import Mathlib

/-!
# Lease-counted thread merging: `fml::RasterThreadMerger`

A shallow embedding of `fml/raster_thread_merger.cc` and the properties of its
lease protocol.

Modelling decisions

* The object is the record `RasterThreadMerger R`; every member function is a
  function on that record.  `R` is the state of the process-wide task-queue
  registry behind `task_queues_`; the registry itself is not part of the
  source file, so its three entry points are a parameter
  (`MessageLoopTaskQueues R`).
* `lease_term_` is a C++ `int`: an `Int` here, and every conversion from the
  `size_t` argument goes through `static_cast_int` (wrap-around modulo `2^32`).
* `FML_CHECK` always aborts; `FML_DCHECK` aborts only in builds that compile
  it in.  The flag `dchecks` says which build is meant.  An abort is the
  `Outcome.fatal` result and carries the state at the moment of the abort.
* The mutex serialises the member functions, so each call is one atomic
  transition of the record (`DecrementLease` releases the mutex before it calls
  `UnMergeNow`; the two are run here with no call of another thread between
  them).  Two ghost fields record effects that leave the object: the registry
  calls issued and the condition-variable notifications.
* `WaitUntilMerged` is the one blocking member.  It takes as an argument the
  calls that other threads complete while it sleeps, and may return, abort,
  or still be blocked when those calls are used up.
-/

namespace fml

/-- Identifier of a task queue (`fml::TaskQueueId`). -/
abbrev TaskQueueId := Nat

/-- Largest value of a 32-bit `int`. -/
def INT_MAX : Int := 2147483647

/-- Sentinel of the source: `const int RasterThreadMerger::kLeaseNotSet = -1;`. -/
def kLeaseNotSet : Int := -1

/-- Conversion of a `size_t` value to `int` (`static_cast<int>(lease_term)` and the
implicit conversion in `lease_term_ = lease_term`): the low 32 bits read as a
two's-complement number. -/
def static_cast_int (n : Nat) : Int :=
  if n % 4294967296 < 2147483648 then ((n % 4294967296 : Nat) : Int)
  else ((n % 4294967296 : Nat) : Int) - 4294967296

/-- Result of `DecrementLease` (`enum class RasterThreadStatus`). -/
inductive RasterThreadStatus where
  | kRemainsMerged
  | kRemainsUnmerged
  | kUnmergedNow
  deriving DecidableEq, Repr

/-- A call that leaves the object for the task-queue registry. -/
inductive RegistryCall where
  | Merge (owner subsumed : TaskQueueId)
  | Unmerge (owner : TaskQueueId)
  deriving DecidableEq, Repr

/-- The part of `fml::MessageLoopTaskQueues` the merger consumes, over a registry
state `R`.  `Merge` and `Unmerge` return the reported success and the registry
state after the call. -/
structure MessageLoopTaskQueues (R : Type) where
  Owns : R → TaskQueueId → TaskQueueId → Bool
  Merge : R → TaskQueueId → TaskQueueId → Bool × R
  Unmerge : R → TaskQueueId → Bool × R

/-- The assertion that aborted a call. -/
inductive Fatal where
  /-- Assertion `FML_CHECK(!task_queues_->Owns(platform_queue_id_, gpu_queue_id_))` -/
  | queue_already_owned
  /-- Assertion `FML_DCHECK(lease_term > 0)` in `MergeWithLease` -/
  | lease_term_should_be_positive
  /-- Assertion `FML_CHECK(success)` after `Merge` -/
  | unable_to_merge
  /-- Assertion `FML_CHECK(success)` after `Unmerge` -/
  | unable_to_unmerge
  /-- Assertion `FML_DCHECK(IsMergedUnSafe())` in `ExtendLeaseTo` -/
  | extend_while_not_merged
  /-- Assertion `FML_DCHECK(lease_term_ > 0)` in `DecrementLease` -/
  | lease_not_positive_when_merged
  /-- Assertion `FML_CHECK(IsOnPlatformThread())` in `WaitUntilMerged` -/
  | wait_off_platform_thread
  deriving DecidableEq, Repr

/-- Result of a member function: it returns `value` in state `state`, or an
assertion aborts the process in state `state`. -/
inductive Outcome (σ α : Type) where
  | ok (value : α) (state : σ)
  | fatal (failure : Fatal) (state : σ)
  deriving DecidableEq, Repr

/-- State reached by a call, whether it returned or aborted. -/
def Outcome.state {σ α : Type} : Outcome σ α → σ
  | .ok _ s => s
  | .fatal _ s => s

/-- Whether the call aborted. -/
def Outcome.isFatal {σ α : Type} : Outcome σ α → Bool
  | .ok _ _ => false
  | .fatal _ _ => true

/-- The object: the members of `class RasterThreadMerger` that the source file
reads or writes, the registry state behind `task_queues_`, and two ghost
fields.  `registry_calls` lists the registry calls issued so far, oldest
first, each with the registry state it was issued in; `notified` counts
`merged_condition_.notify_one()`. -/
structure RasterThreadMerger (R : Type) where
  platform_queue_id_ : TaskQueueId
  gpu_queue_id_ : TaskQueueId
  task_queues_ : R
  lease_term_ : Int
  registry_calls : List (RegistryCall × R)
  notified : Nat
  deriving DecidableEq, Repr

namespace RasterThreadMerger

variable {R : Type}

/-- Constructor `RasterThreadMerger::RasterThreadMerger(platform_queue_id, gpu_queue_id)`,
run against a registry in state `r`. -/
def construct (Q : MessageLoopTaskQueues R) (r : R)
    (platform_queue_id gpu_queue_id : TaskQueueId) : Outcome (RasterThreadMerger R) Unit :=
  let m : RasterThreadMerger R :=
    { platform_queue_id_ := platform_queue_id
      gpu_queue_id_ := gpu_queue_id
      task_queues_ := r
      lease_term_ := kLeaseNotSet
      registry_calls := []
      notified := 0 }
  if Q.Owns m.task_queues_ m.platform_queue_id_ m.gpu_queue_id_ then
    .fatal .queue_already_owned m
  else
    .ok () m

/-- Member `TaskQueuesAreSame()`. -/
def TaskQueuesAreSame (m : RasterThreadMerger R) : Bool :=
  m.platform_queue_id_ == m.gpu_queue_id_

/-- Member `IsMergedUnSafe()`. -/
def IsMergedUnSafe (m : RasterThreadMerger R) : Bool :=
  decide (m.lease_term_ > 0) || TaskQueuesAreSame m

/-- Member `IsMerged()`: `IsMergedUnSafe()` under the mutex. -/
def IsMerged (m : RasterThreadMerger R) : Bool :=
  IsMergedUnSafe m

/-- Member `MergeWithLease(size_t lease_term)`. -/
def MergeWithLease (Q : MessageLoopTaskQueues R) (dchecks : Bool)
    (m : RasterThreadMerger R) (lease_term : Nat) : Outcome (RasterThreadMerger R) Unit :=
  if TaskQueuesAreSame m then
    .ok () m
  else if dchecks && !decide (lease_term > 0) then
    .fatal .lease_term_should_be_positive m
  else if !IsMergedUnSafe m then
    let answer := Q.Merge m.task_queues_ m.platform_queue_id_ m.gpu_queue_id_
    let m1 : RasterThreadMerger R :=
      { m with
        task_queues_ := answer.2
        registry_calls := m.registry_calls ++
          [(RegistryCall.Merge m.platform_queue_id_ m.gpu_queue_id_, m.task_queues_)] }
    if !answer.1 then
      .fatal .unable_to_merge m1
    else
      .ok () { m1 with lease_term_ := static_cast_int lease_term, notified := m1.notified + 1 }
  else
    .ok () { m with notified := m.notified + 1 }

/-- Member `UnMergeNow()`. -/
def UnMergeNow (Q : MessageLoopTaskQueues R)
    (m : RasterThreadMerger R) : Outcome (RasterThreadMerger R) Unit :=
  if TaskQueuesAreSame m then
    .ok () m
  else
    let answer := Q.Unmerge m.task_queues_ m.platform_queue_id_
    let m1 : RasterThreadMerger R :=
      { m with
        lease_term_ := 0
        task_queues_ := answer.2
        registry_calls := m.registry_calls ++
          [(RegistryCall.Unmerge m.platform_queue_id_, m.task_queues_)] }
    if !answer.1 then
      .fatal .unable_to_unmerge m1
    else
      .ok () m1

/-- Member `IsOnPlatformThread()`; `current` is what
`MessageLoop::GetCurrentTaskQueueId()` returns on the calling thread. -/
def IsOnPlatformThread (m : RasterThreadMerger R) (current : TaskQueueId) : Bool :=
  current == m.platform_queue_id_

/-- Member `IsOnRasterizingThread()`. -/
def IsOnRasterizingThread (m : RasterThreadMerger R) (current : TaskQueueId) : Bool :=
  if IsMergedUnSafe m then
    IsOnPlatformThread m current
  else
    !IsOnPlatformThread m current

/-- Member `ExtendLeaseTo(size_t lease_term)`. -/
def ExtendLeaseTo (dchecks : Bool)
    (m : RasterThreadMerger R) (lease_term : Nat) : Outcome (RasterThreadMerger R) Unit :=
  if TaskQueuesAreSame m then
    .ok () m
  else if dchecks && !IsMergedUnSafe m then
    .fatal .extend_while_not_merged m
  else if m.lease_term_ != kLeaseNotSet && decide (static_cast_int lease_term > m.lease_term_) then
    .ok () { m with lease_term_ := static_cast_int lease_term }
  else
    .ok () m

/-- Member `DecrementLease()`.  The decrement is reached only with
`lease_term_ > 0`, so it cannot overflow. -/
def DecrementLease (Q : MessageLoopTaskQueues R) (dchecks : Bool)
    (m : RasterThreadMerger R) : Outcome (RasterThreadMerger R) RasterThreadStatus :=
  if TaskQueuesAreSame m then
    .ok .kRemainsMerged m
  else if !IsMergedUnSafe m then
    .ok .kRemainsUnmerged m
  else if dchecks && !decide (m.lease_term_ > 0) then
    .fatal .lease_not_positive_when_merged m
  else
    let m1 : RasterThreadMerger R := { m with lease_term_ := m.lease_term_ - 1 }
    if m1.lease_term_ == 0 then
      match UnMergeNow Q m1 with
      | .ok _ m2 => .ok .kUnmergedNow m2
      | .fatal f m2 => .fatal f m2
    else
      .ok .kRemainsMerged m1

end RasterThreadMerger

/-! ## Call sequences -/

/-- One call of a state-changing public member function. -/
inductive Op where
  | MergeWithLease (lease_term : Nat)
  | UnMergeNow
  | ExtendLeaseTo (lease_term : Nat)
  | DecrementLease
  deriving DecidableEq, Repr

variable {R : Type}

/-- Perform one call; the value is the status for `DecrementLease` and `none`
for the `void` members. -/
def step (Q : MessageLoopTaskQueues R) (dchecks : Bool) (m : RasterThreadMerger R) :
    Op → Outcome (RasterThreadMerger R) (Option RasterThreadStatus)
  | .MergeWithLease t =>
    match RasterThreadMerger.MergeWithLease Q dchecks m t with
    | .ok _ m1 => .ok none m1
    | .fatal f m1 => .fatal f m1
  | .UnMergeNow =>
    match RasterThreadMerger.UnMergeNow Q m with
    | .ok _ m1 => .ok none m1
    | .fatal f m1 => .fatal f m1
  | .ExtendLeaseTo t =>
    match RasterThreadMerger.ExtendLeaseTo dchecks m t with
    | .ok _ m1 => .ok none m1
    | .fatal f m1 => .fatal f m1
  | .DecrementLease =>
    match RasterThreadMerger.DecrementLease Q dchecks m with
    | .ok s m1 => .ok (some s) m1
    | .fatal f m1 => .fatal f m1

/-- Perform the calls in order, collecting the values; an abort ends the run. -/
def run (Q : MessageLoopTaskQueues R) (dchecks : Bool) :
    List Op → RasterThreadMerger R → Outcome (RasterThreadMerger R) (List (Option RasterThreadStatus))
  | [], m => .ok [] m
  | op :: ops, m =>
    match step Q dchecks m op with
    | .fatal f m1 => .fatal f m1
    | .ok v m1 =>
      match run Q dchecks ops m1 with
      | .ok vs m2 => .ok (v :: vs) m2
      | .fatal f m2 => .fatal f m2

/-- Call `DecrementLease()` `n` times, recording after each call the status it
returned and what `IsMerged()` answers then. -/
def decrementTimes (Q : MessageLoopTaskQueues R) (dchecks : Bool) :
    Nat → RasterThreadMerger R → Outcome (RasterThreadMerger R) (List (RasterThreadStatus × Bool))
  | 0, m => .ok [] m
  | n + 1, m =>
    match RasterThreadMerger.DecrementLease Q dchecks m with
    | .fatal f m1 => .fatal f m1
    | .ok s m1 =>
      match decrementTimes Q dchecks n m1 with
      | .ok rest m2 => .ok ((s, RasterThreadMerger.IsMerged m1) :: rest) m2
      | .fatal f m2 => .fatal f m2

/-- Result of `WaitUntilMerged`.  The call returns in `state`; or its own assertion
aborts it; or it is still blocked in `state` when the observation ends; or a call made
by another thread aborted the process while it was blocked. -/
inductive WaitOutcome (σ : Type) where
  | returned (state : σ)
  | fatal (failure : Fatal) (state : σ)
  | blocked (state : σ)
  | aborted (failure : Fatal) (state : σ)
  deriving DecidableEq, Repr

/-- The wait `merged_condition_.wait(lock, [&] { return IsMergedUnSafe(); })`: the
predicate is tested under the mutex; while it is false the thread sleeps with the
mutex released, and other threads make calls.  `others` lists, for each sleep in turn,
the calls the other threads complete before the sleeper holds the mutex again (after
a notification or a spurious wake-up).  The loop reads the object and writes
nothing. -/
def waitLoop (Q : MessageLoopTaskQueues R) (dchecks : Bool) :
    RasterThreadMerger R → List (List Op) → WaitOutcome (RasterThreadMerger R)
  | m, [] =>
    if RasterThreadMerger.IsMergedUnSafe m then .returned m else .blocked m
  | m, calls :: rest =>
    if RasterThreadMerger.IsMergedUnSafe m then
      .returned m
    else
      match run Q dchecks calls m with
      | .ok _ m1 => waitLoop Q dchecks m1 rest
      | .fatal f m1 => .aborted f m1

/-- Member `WaitUntilMerged()`, called on a thread whose current queue is `current`
while other threads make the calls `others` (see `waitLoop`). -/
def RasterThreadMerger.WaitUntilMerged (Q : MessageLoopTaskQueues R) (dchecks : Bool)
    (m : RasterThreadMerger R) (current : TaskQueueId) (others : List (List Op)) :
    WaitOutcome (RasterThreadMerger R) :=
  if RasterThreadMerger.TaskQueuesAreSame m then
    .returned m
  else if !RasterThreadMerger.IsOnPlatformThread m current then
    .fatal .wait_off_platform_thread m
  else
    waitLoop Q dchecks m others

/-- What a call returns when the platform and the raster queue are the same queue:
`kRemainsMerged` from `DecrementLease`, nothing from the `void` members. -/
def sameQueueValue : Op → Option RasterThreadStatus
  | .DecrementLease => some .kRemainsMerged
  | _ => none

/-- Modelled from the spec: the task-queue registry (`fml::MessageLoopTaskQueues`,
which is not part of the source file) seen as one flag, `true` while the
platform and the raster queue are fused.  `Merge` fuses the two queues,
`Unmerge` splits them, `Owns` reports the flag.  A request for a transition
that is already taken leaves the flag as it is and reports `mergeAgain`,
respectively `unmergeAgain`. -/
def flagQueues (mergeAgain unmergeAgain : Bool) : MessageLoopTaskQueues Bool where
  Owns := fun fused _ _ => fused
  Merge := fun fused _ _ => if fused then (mergeAgain, true) else (true, true)
  Unmerge := fun fused _ => if fused then (true, false) else (unmergeAgain, false)

/-- A freshly constructed merger for the platform queue `1` and the raster queue
`2`, over the flag registry with the queues not fused. -/
def freshMerger : RasterThreadMerger Bool :=
  { platform_queue_id_ := 1
    gpu_queue_id_ := 2
    task_queues_ := false
    lease_term_ := kLeaseNotSet
    registry_calls := []
    notified := 0 }

/-- The merger `freshMerger` while merged with a lease of `lease`. -/
def mergedMerger (lease : Int) : RasterThreadMerger Bool :=
  { platform_queue_id_ := 1
    gpu_queue_id_ := 2
    task_queues_ := true
    lease_term_ := lease
    registry_calls := [(RegistryCall.Merge 1 2, false)]
    notified := 1 }

/-- A registry call recorded with the flag it was issued in is in order when a
`Merge` was issued while the queues were not fused and an `Unmerge` while they
were fused. -/
def inOrder : RegistryCall × Bool → Bool
  | (.Merge _ _, fused) => !fused
  | (.Unmerge _, fused) => fused

/-- Caller discipline for one call in state `m`: a `MergeWithLease` term lies between
`1` and `INT_MAX`; `UnMergeNow` is called only while merged; `ExtendLeaseTo` is called
only while merged, unless the build has `FML_DCHECK` (which then aborts the call). -/
def respectsPreconditions (dchecks : Bool) (m : RasterThreadMerger Bool) : Op → Bool
  | .MergeWithLease t => decide (1 ≤ t) && decide ((t : Int) ≤ INT_MAX)
  | .UnMergeNow => RasterThreadMerger.IsMerged m
  | .ExtendLeaseTo _ => dchecks || RasterThreadMerger.IsMerged m
  | .DecrementLease => true

/-- Every call of the sequence respects its precondition in the state it is made in
(calls after an abort are never made). -/
def disciplined (Q : MessageLoopTaskQueues Bool) (dchecks : Bool) :
    List Op → RasterThreadMerger Bool → Bool
  | [], _ => true
  | op :: ops, m =>
    respectsPreconditions dchecks m op &&
      match step Q dchecks m op with
      | .ok _ m1 => disciplined Q dchecks ops m1
      | .fatal _ _ => true

/-- The merger and the flag registry agree: the queues are distinct, the registry has
them fused exactly when the lease is positive, and every registry call issued so far
was in order. -/
def coherent (m : RasterThreadMerger Bool) : Prop :=
  m.platform_queue_id_ ≠ m.gpu_queue_id_ ∧
  (m.task_queues_ = true ↔ 0 < m.lease_term_) ∧
  ∀ c ∈ m.registry_calls, inOrder c = true

/-- The terms of a call lie between `1` and `INT_MAX` (calls without a term pass). -/
def termInRange : Op → Bool
  | .MergeWithLease t => decide (1 ≤ t) && decide ((t : Int) ≤ INT_MAX)
  | .ExtendLeaseTo t => decide (1 ≤ t) && decide ((t : Int) ≤ INT_MAX)
  | .UnMergeNow => true
  | .DecrementLease => true

/-- The flag registry and the lease agree: the queues are distinct and the registry has
them fused exactly when the lease is positive. -/
def registryAgrees (m : RasterThreadMerger Bool) : Prop :=
  m.platform_queue_id_ ≠ m.gpu_queue_id_ ∧ (m.task_queues_ = true ↔ 0 < m.lease_term_)

/-- The state in which the lease of the merger `freshMerger` has run out: it was merged
and has been unmerged again. -/
def retiredMerger : RasterThreadMerger Bool :=
  { platform_queue_id_ := 1
    gpu_queue_id_ := 2
    task_queues_ := false
    lease_term_ := 0
    registry_calls := [(RegistryCall.Merge 1 2, false), (RegistryCall.Unmerge 1, true)]
    notified := 1 }

/-! ## Basic facts -/

namespace RasterThreadMerger

theorem TaskQueuesAreSame_of_ne (m : RasterThreadMerger R)
    (hne : m.platform_queue_id_ ≠ m.gpu_queue_id_) : TaskQueuesAreSame m = false := by
  simp [TaskQueuesAreSame, hne]

theorem IsMergedUnSafe_of_ne (m : RasterThreadMerger R)
    (hne : m.platform_queue_id_ ≠ m.gpu_queue_id_) :
    IsMergedUnSafe m = decide (m.lease_term_ > 0) := by
  simp [IsMergedUnSafe, TaskQueuesAreSame, hne]

/-- With more than one unit left, `DecrementLease` only lowers the lease. -/
theorem DecrementLease_of_one_lt (Q : MessageLoopTaskQueues R) (dchecks : Bool)
    (m : RasterThreadMerger R) (hne : m.platform_queue_id_ ≠ m.gpu_queue_id_)
    (hl : 1 < m.lease_term_) :
    DecrementLease Q dchecks m =
      .ok .kRemainsMerged { m with lease_term_ := m.lease_term_ - 1 } := by
  have hpos : 0 < m.lease_term_ := by omega
  have hnz : ¬ (m.lease_term_ - 1 = 0) := by omega
  simp [DecrementLease, TaskQueuesAreSame_of_ne m hne, IsMergedUnSafe_of_ne m hne, hpos, hnz]

/-- With exactly one unit left, `DecrementLease` hands over to `UnMergeNow`. -/
theorem DecrementLease_of_eq_one (Q : MessageLoopTaskQueues R) (dchecks : Bool)
    (m : RasterThreadMerger R) (hne : m.platform_queue_id_ ≠ m.gpu_queue_id_)
    (hl : m.lease_term_ = 1) :
    DecrementLease Q dchecks m =
      if (Q.Unmerge m.task_queues_ m.platform_queue_id_).1 then
        .ok .kUnmergedNow
          { m with
            lease_term_ := 0
            task_queues_ := (Q.Unmerge m.task_queues_ m.platform_queue_id_).2
            registry_calls := m.registry_calls ++
              [(RegistryCall.Unmerge m.platform_queue_id_, m.task_queues_)] }
      else
        .fatal .unable_to_unmerge
          { m with
            lease_term_ := 0
            task_queues_ := (Q.Unmerge m.task_queues_ m.platform_queue_id_).2
            registry_calls := m.registry_calls ++
              [(RegistryCall.Unmerge m.platform_queue_id_, m.task_queues_)] } := by
  have hsame : TaskQueuesAreSame m = false := TaskQueuesAreSame_of_ne m hne
  simp only [DecrementLease, UnMergeNow, IsMergedUnSafe, TaskQueuesAreSame] at *
  simp only [hsame, hl]
  cases h : (Q.Unmerge m.task_queues_ m.platform_queue_id_).1 <;> simp [h]

/-- Without a positive lease, `DecrementLease` changes nothing. -/
theorem DecrementLease_of_not_pos (Q : MessageLoopTaskQueues R) (dchecks : Bool)
    (m : RasterThreadMerger R) (hne : m.platform_queue_id_ ≠ m.gpu_queue_id_)
    (hl : m.lease_term_ ≤ 0) :
    DecrementLease Q dchecks m = .ok .kRemainsUnmerged m := by
  have hpos : ¬ (0 < m.lease_term_) := by omega
  simp [DecrementLease, TaskQueuesAreSame_of_ne m hne, IsMergedUnSafe_of_ne m hne, hpos]

end RasterThreadMerger

theorem static_cast_int_of_le_INT_MAX (n : Nat) (h : (n : Int) ≤ INT_MAX) :
    static_cast_int n = (n : Int) := by
  unfold INT_MAX at h
  have h1 : n < 2147483648 := by omega
  have h2 : n % 4294967296 = n := Nat.mod_eq_of_lt (by omega)
  simp [static_cast_int, h2, h1]

/-- Counting a lease of `k + 1` down: `k` calls keep the merge, the next one ends it. -/
theorem decrementTimes_countdown (Q : MessageLoopTaskQueues R) (dchecks : Bool) (k : Nat) :
    ∀ m : RasterThreadMerger R, m.platform_queue_id_ ≠ m.gpu_queue_id_ →
      m.lease_term_ = (k : Int) + 1 →
      (Q.Unmerge m.task_queues_ m.platform_queue_id_).1 = true →
      decrementTimes Q dchecks (k + 1) m =
        .ok (List.replicate k (RasterThreadStatus.kRemainsMerged, true) ++
              [(RasterThreadStatus.kUnmergedNow, false)])
          { m with
            lease_term_ := 0
            task_queues_ := (Q.Unmerge m.task_queues_ m.platform_queue_id_).2
            registry_calls := m.registry_calls ++
              [(RegistryCall.Unmerge m.platform_queue_id_, m.task_queues_)] } := by
  induction k with
  | zero =>
    intro m hne hl hU
    have hl1 : m.lease_term_ = 1 := by simpa using hl
    simp [decrementTimes, RasterThreadMerger.DecrementLease_of_eq_one Q dchecks m hne hl1, hU,
      RasterThreadMerger.IsMerged, RasterThreadMerger.IsMergedUnSafe,
      RasterThreadMerger.TaskQueuesAreSame, hne]
  | succ k ih =>
    intro m hne hl hU
    have hgt : 1 < m.lease_term_ := by omega
    have hstep := RasterThreadMerger.DecrementLease_of_one_lt Q dchecks m hne hgt
    have hih := ih { m with lease_term_ := m.lease_term_ - 1 } hne
      (by show m.lease_term_ - 1 = (k : Int) + 1; omega) hU
    have hpos : 0 < m.lease_term_ - 1 := by omega
    rw [decrementTimes, hstep]
    simp only [hih]
    simp [RasterThreadMerger.IsMerged, RasterThreadMerger.IsMergedUnSafe, hpos,
      List.replicate_succ]

/-! ## The lease protocol -/

/-- C1: with distinct queues, from an unmerged state (lease `kLeaseNotSet` or `0`) and
for a term `n` with `1 ≤ n ≤ INT_MAX`, `MergeWithLease(n)` followed by `n` calls of
`DecrementLease()` returns `kRemainsMerged` for the first `n - 1` calls, each leaving
`IsMerged()` true, and `kUnmergedNow` for the `n`-th call, after which `IsMerged()` is
false.  The registry is assumed to report success for the `Merge` and the `Unmerge`
it is asked for (a reported failure aborts the process). -/
theorem C1_merge_then_n_decrements (Q : MessageLoopTaskQueues R) (dchecks : Bool)
    (m : RasterThreadMerger R) (n : Nat)
    (hne : m.platform_queue_id_ ≠ m.gpu_queue_id_)
    (h1 : 1 ≤ n) (hmax : (n : Int) ≤ INT_MAX)
    (hun : m.lease_term_ = kLeaseNotSet ∨ m.lease_term_ = 0)
    (hM : (Q.Merge m.task_queues_ m.platform_queue_id_ m.gpu_queue_id_).1 = true)
    (hU : (Q.Unmerge (Q.Merge m.task_queues_ m.platform_queue_id_ m.gpu_queue_id_).2
            m.platform_queue_id_).1 = true) :
    ∃ m1 m2 : RasterThreadMerger R,
      RasterThreadMerger.MergeWithLease Q dchecks m n = .ok () m1 ∧
      decrementTimes Q dchecks n m1 =
        .ok (List.replicate (n - 1) (RasterThreadStatus.kRemainsMerged, true) ++
              [(RasterThreadStatus.kUnmergedNow, false)]) m2 ∧
      RasterThreadMerger.IsMerged m2 = false ∧ m2.lease_term_ = 0 := by
  have hnot : ¬ (0 < m.lease_term_) := by
    rcases hun with h | h <;> rw [h] <;> simp [kLeaseNotSet]
  have hnpos : 0 < n := h1
  have hmerge : RasterThreadMerger.MergeWithLease Q dchecks m n =
      .ok ()
        { m with
          task_queues_ := (Q.Merge m.task_queues_ m.platform_queue_id_ m.gpu_queue_id_).2
          registry_calls := m.registry_calls ++
            [(RegistryCall.Merge m.platform_queue_id_ m.gpu_queue_id_, m.task_queues_)]
          lease_term_ := (n : Int)
          notified := m.notified + 1 } := by
    simp [RasterThreadMerger.MergeWithLease, RasterThreadMerger.TaskQueuesAreSame_of_ne m hne,
      RasterThreadMerger.IsMergedUnSafe_of_ne m hne, hnot, hnpos, hM,
      static_cast_int_of_le_INT_MAX n hmax]
  obtain ⟨k, rfl⟩ : ∃ k, n = k + 1 := ⟨n - 1, by omega⟩
  have hcount := decrementTimes_countdown Q dchecks k
    { m with
      task_queues_ := (Q.Merge m.task_queues_ m.platform_queue_id_ m.gpu_queue_id_).2
      registry_calls := m.registry_calls ++
        [(RegistryCall.Merge m.platform_queue_id_ m.gpu_queue_id_, m.task_queues_)]
      lease_term_ := ((k + 1 : Nat) : Int)
      notified := m.notified + 1 } hne (by simp) hU
  refine ⟨_, _, hmerge, hcount, ?_, rfl⟩
  simp [RasterThreadMerger.IsMerged, RasterThreadMerger.IsMergedUnSafe,
    RasterThreadMerger.TaskQueuesAreSame, hne]

/-- Instance of C1: a fresh merger, `MergeWithLease(3)`, three decrements. -/
theorem C1_merge_then_n_decrements_witness :
    ∃ m1 m2 : RasterThreadMerger Bool,
      RasterThreadMerger.MergeWithLease (flagQueues false false) true freshMerger 3 = .ok () m1 ∧
      decrementTimes (flagQueues false false) true 3 m1 =
        .ok (List.replicate (3 - 1) (RasterThreadStatus.kRemainsMerged, true) ++
              [(RasterThreadStatus.kUnmergedNow, false)]) m2 ∧
      RasterThreadMerger.IsMerged m2 = false ∧ m2.lease_term_ = 0 :=
  C1_merge_then_n_decrements (flagQueues false false) true freshMerger 3
    (by decide) (by decide) (by decide) (by decide) (by decide) (by decide)

/-- On a merged coordinator `ExtendLeaseTo` returns, and the lease becomes the larger of
the old lease and the term read as an `int`. -/
theorem RasterThreadMerger.ExtendLeaseTo_of_merged (dchecks : Bool) (m : RasterThreadMerger R)
    (t : Nat) (hne : m.platform_queue_id_ ≠ m.gpu_queue_id_) (hl : 0 < m.lease_term_) :
    RasterThreadMerger.ExtendLeaseTo dchecks m t =
      .ok () { m with lease_term_ := max m.lease_term_ (static_cast_int t) } := by
  have hns : ¬ (m.lease_term_ = kLeaseNotSet) := by unfold kLeaseNotSet; omega
  by_cases hgt : static_cast_int t > m.lease_term_
  · have hmax : max m.lease_term_ (static_cast_int t) = static_cast_int t :=
      max_eq_right (le_of_lt hgt)
    simp [RasterThreadMerger.ExtendLeaseTo, RasterThreadMerger.TaskQueuesAreSame_of_ne m hne,
      RasterThreadMerger.IsMergedUnSafe_of_ne m hne, hl, hns, hgt, hmax]
  · have hmax : max m.lease_term_ (static_cast_int t) = m.lease_term_ :=
      max_eq_left (not_lt.mp hgt)
    simp [RasterThreadMerger.ExtendLeaseTo, RasterThreadMerger.TaskQueuesAreSame_of_ne m hne,
      RasterThreadMerger.IsMergedUnSafe_of_ne m hne, hl, hns, hgt, hmax]

/-- C2, refuted as stated: the term is a `size_t`, and with a lease of `5` the call
`ExtendLeaseTo(2147483648)` returns with the lease still `5`, not
`max(5, 2147483648)`. -/
theorem C2_counterexample_term_above_INT_MAX :
    RasterThreadMerger.ExtendLeaseTo true (mergedMerger 5) 2147483648 = .ok () (mergedMerger 5) ∧
    (mergedMerger 5).lease_term_ ≠ max 5 ((2147483648 : Nat) : Int) := by
  decide

/-- C2, amended: with distinct queues, a merged state with lease `l > 0` and a term `t`
with `t ≤ INT_MAX` (positive, or zero), `ExtendLeaseTo(t)` returns with the lease equal to `max(l, t)`
and nothing else changed; the next `max(l, t) - 1` calls of `DecrementLease()` return
`kRemainsMerged` and the `max(l, t)`-th returns `kUnmergedNow` (the registry reporting
success for the `Unmerge`); and a term `t ≤ l` leaves the state as it was. -/
theorem C2_extend_lease_to_max (Q : MessageLoopTaskQueues R) (dchecks : Bool)
    (m : RasterThreadMerger R) (t : Nat)
    (hne : m.platform_queue_id_ ≠ m.gpu_queue_id_)
    (hl : 0 < m.lease_term_) (htmax : (t : Int) ≤ INT_MAX)
    (hU : (Q.Unmerge m.task_queues_ m.platform_queue_id_).1 = true) :
    ∃ m2 : RasterThreadMerger R,
      RasterThreadMerger.ExtendLeaseTo dchecks m t =
        .ok () { m with lease_term_ := max m.lease_term_ (t : Int) } ∧
      decrementTimes Q dchecks (max m.lease_term_ (t : Int)).toNat
          { m with lease_term_ := max m.lease_term_ (t : Int) } =
        .ok (List.replicate ((max m.lease_term_ (t : Int)).toNat - 1)
                (RasterThreadStatus.kRemainsMerged, true) ++
              [(RasterThreadStatus.kUnmergedNow, false)]) m2 ∧
      ((t : Int) ≤ m.lease_term_ → RasterThreadMerger.ExtendLeaseTo dchecks m t = .ok () m) := by
  have hext := RasterThreadMerger.ExtendLeaseTo_of_merged dchecks m t hne hl
  rw [static_cast_int_of_le_INT_MAX t htmax] at hext
  have hpos : 0 < max m.lease_term_ (t : Int) := lt_max_of_lt_left hl
  obtain ⟨k, hk⟩ : ∃ k : Nat, max m.lease_term_ (t : Int) = (k : Int) + 1 :=
    ⟨(max m.lease_term_ (t : Int)).toNat - 1, by omega⟩
  have hcount := decrementTimes_countdown Q dchecks k
    { m with lease_term_ := max m.lease_term_ (t : Int) } hne hk hU
  have hnat : (max m.lease_term_ (t : Int)).toNat = k + 1 := by omega
  refine ⟨{ m with
      lease_term_ := 0
      task_queues_ := (Q.Unmerge m.task_queues_ m.platform_queue_id_).2
      registry_calls := m.registry_calls ++
        [(RegistryCall.Unmerge m.platform_queue_id_, m.task_queues_)] }, hext, ?_, ?_⟩
  · rw [hnat, Nat.add_sub_cancel]
    exact hcount
  · intro hle
    rw [hext, max_eq_left hle]

/-- Instance of C2: a lease of `2` extended to `5`. -/
theorem C2_extend_lease_to_max_witness :
    ∃ m2 : RasterThreadMerger Bool,
      RasterThreadMerger.ExtendLeaseTo true (mergedMerger 2) 5 =
        .ok () { mergedMerger 2 with lease_term_ := max (mergedMerger 2).lease_term_ ((5 : Nat) : Int) } ∧
      decrementTimes (flagQueues false false) true
          (max (mergedMerger 2).lease_term_ ((5 : Nat) : Int)).toNat
          { mergedMerger 2 with lease_term_ := max (mergedMerger 2).lease_term_ ((5 : Nat) : Int) } =
        .ok (List.replicate ((max (mergedMerger 2).lease_term_ ((5 : Nat) : Int)).toNat - 1)
                (RasterThreadStatus.kRemainsMerged, true) ++
              [(RasterThreadStatus.kUnmergedNow, false)]) m2 ∧
      (((5 : Nat) : Int) ≤ (mergedMerger 2).lease_term_ →
        RasterThreadMerger.ExtendLeaseTo true (mergedMerger 2) 5 = .ok () (mergedMerger 2)) :=
  C2_extend_lease_to_max (flagQueues false false) true (mergedMerger 2) 5
    (by decide) (by decide) (by decide) (by decide)

/-- C3: with distinct queues, `UnMergeNow()` leaves the lease at `0` and `IsMerged()`
false whatever the lease was, and adds exactly one registry call, `Unmerge(platform)`,
to those issued before; when the registry reports success the call returns, and a
`DecrementLease()` called next returns `kRemainsUnmerged` and changes nothing. -/
theorem C3_unmerge_now_forces_unmerged (Q : MessageLoopTaskQueues R) (dchecks : Bool)
    (m : RasterThreadMerger R) (hne : m.platform_queue_id_ ≠ m.gpu_queue_id_) :
    (RasterThreadMerger.UnMergeNow Q m).state.lease_term_ = 0 ∧
    RasterThreadMerger.IsMerged (RasterThreadMerger.UnMergeNow Q m).state = false ∧
    (RasterThreadMerger.UnMergeNow Q m).state.registry_calls =
      m.registry_calls ++ [(RegistryCall.Unmerge m.platform_queue_id_, m.task_queues_)] ∧
    ((Q.Unmerge m.task_queues_ m.platform_queue_id_).1 = true →
      ∃ m1 : RasterThreadMerger R,
        RasterThreadMerger.UnMergeNow Q m = .ok () m1 ∧
        RasterThreadMerger.DecrementLease Q dchecks m1 = .ok .kRemainsUnmerged m1) := by
  have hsame := RasterThreadMerger.TaskQueuesAreSame_of_ne m hne
  cases hU : (Q.Unmerge m.task_queues_ m.platform_queue_id_).1
  · simp [RasterThreadMerger.UnMergeNow, hsame, hU, Outcome.state, RasterThreadMerger.IsMerged,
      RasterThreadMerger.IsMergedUnSafe, RasterThreadMerger.TaskQueuesAreSame, hne]
  · have hrun : RasterThreadMerger.UnMergeNow Q m =
        .ok ()
          { m with
            lease_term_ := 0
            task_queues_ := (Q.Unmerge m.task_queues_ m.platform_queue_id_).2
            registry_calls := m.registry_calls ++
              [(RegistryCall.Unmerge m.platform_queue_id_, m.task_queues_)] } := by
      simp [RasterThreadMerger.UnMergeNow, hsame, hU]
    rw [hrun]
    refine ⟨rfl, ?_, rfl, fun _ => ⟨_, rfl, ?_⟩⟩
    · simp [Outcome.state, RasterThreadMerger.IsMerged, RasterThreadMerger.IsMergedUnSafe,
        RasterThreadMerger.TaskQueuesAreSame, hne]
    · exact RasterThreadMerger.DecrementLease_of_not_pos Q dchecks _ hne (le_refl _)

/-- Instance of C3: `UnMergeNow()` while the lease is `3`. -/
theorem C3_unmerge_now_forces_unmerged_witness :
    (RasterThreadMerger.UnMergeNow (flagQueues false false) (mergedMerger 3)).state.lease_term_ = 0 ∧
    RasterThreadMerger.IsMerged
      (RasterThreadMerger.UnMergeNow (flagQueues false false) (mergedMerger 3)).state = false ∧
    (RasterThreadMerger.UnMergeNow (flagQueues false false) (mergedMerger 3)).state.registry_calls =
      (mergedMerger 3).registry_calls ++
        [(RegistryCall.Unmerge (mergedMerger 3).platform_queue_id_, (mergedMerger 3).task_queues_)] ∧
    (((flagQueues false false).Unmerge (mergedMerger 3).task_queues_
        (mergedMerger 3).platform_queue_id_).1 = true →
      ∃ m1 : RasterThreadMerger Bool,
        RasterThreadMerger.UnMergeNow (flagQueues false false) (mergedMerger 3) = .ok () m1 ∧
        RasterThreadMerger.DecrementLease (flagQueues false false) true m1 =
          .ok .kRemainsUnmerged m1) :=
  C3_unmerge_now_forces_unmerged (flagQueues false false) true (mergedMerger 3) (by decide)

/-- With one queue in both roles every call returns at once and leaves the object as
it was. -/
theorem step_of_same_queue (Q : MessageLoopTaskQueues R) (dchecks : Bool)
    (m : RasterThreadMerger R) (hsame : m.platform_queue_id_ = m.gpu_queue_id_) (op : Op) :
    step Q dchecks m op = .ok (sameQueueValue op) m := by
  have h : RasterThreadMerger.TaskQueuesAreSame m = true := by
    simp [RasterThreadMerger.TaskQueuesAreSame, hsame]
  cases op <;>
    simp [step, sameQueueValue, RasterThreadMerger.MergeWithLease, RasterThreadMerger.UnMergeNow,
      RasterThreadMerger.ExtendLeaseTo, RasterThreadMerger.DecrementLease, h]

/-- C4: when the platform id equals the raster id, every sequence of `MergeWithLease`,
`ExtendLeaseTo`, `UnMergeNow` and `DecrementLease` calls, with any arguments, runs to
its end without an abort and leaves the object exactly as it was: `lease_term_` keeps
its value (`kLeaseNotSet` after construction), no registry call is added, every
`DecrementLease()` returns `kRemainsMerged`, and `IsMerged()` is true.  As the state
after every prefix of the sequence is the starting state, this holds in every state
the sequence passes through. -/
theorem C4_same_queue_calls_are_inert (Q : MessageLoopTaskQueues R) (dchecks : Bool)
    (m : RasterThreadMerger R) (ops : List Op)
    (hsame : m.platform_queue_id_ = m.gpu_queue_id_) :
    run Q dchecks ops m = .ok (ops.map sameQueueValue) m ∧
    (run Q dchecks ops m).state.lease_term_ = m.lease_term_ ∧
    (run Q dchecks ops m).state.registry_calls = m.registry_calls ∧
    RasterThreadMerger.IsMerged (run Q dchecks ops m).state = true ∧
    (∀ (r : R) (id : TaskQueueId),
      (RasterThreadMerger.construct Q r id id).state.lease_term_ = kLeaseNotSet ∧
      (RasterThreadMerger.construct Q r id id).state.registry_calls = []) := by
  have hrun : run Q dchecks ops m = .ok (ops.map sameQueueValue) m := by
    induction ops with
    | nil => rfl
    | cons op ops ih => simp [run, step_of_same_queue Q dchecks m hsame op, ih]
  refine ⟨hrun, ?_, ?_, ?_, ?_⟩
  · rw [hrun]; rfl
  · rw [hrun]; rfl
  · rw [hrun]
    simp [Outcome.state, RasterThreadMerger.IsMerged, RasterThreadMerger.IsMergedUnSafe,
      RasterThreadMerger.TaskQueuesAreSame, hsame]
  · intro r id
    unfold RasterThreadMerger.construct
    dsimp only
    split <;> exact ⟨rfl, rfl⟩

/-- A constructed merger whose platform and raster queue are both queue `7`. -/
theorem C4_same_queue_calls_are_inert_witness :
    run (flagQueues false false) true
        [Op.MergeWithLease 0, Op.DecrementLease, Op.ExtendLeaseTo 9, Op.UnMergeNow, Op.DecrementLease]
        { freshMerger with platform_queue_id_ := 7, gpu_queue_id_ := 7 } =
      .ok ([Op.MergeWithLease 0, Op.DecrementLease, Op.ExtendLeaseTo 9, Op.UnMergeNow,
              Op.DecrementLease].map sameQueueValue)
        { freshMerger with platform_queue_id_ := 7, gpu_queue_id_ := 7 } :=
  (C4_same_queue_calls_are_inert (flagQueues false false) true
    { freshMerger with platform_queue_id_ := 7, gpu_queue_id_ := 7 }
    [Op.MergeWithLease 0, Op.DecrementLease, Op.ExtendLeaseTo 9, Op.UnMergeNow, Op.DecrementLease]
    rfl).1

/-- A call that respects its precondition in a coherent state either returns in a
coherent state or is aborted by an `FML_DCHECK` before anything changed. -/
theorem step_preserves_coherent (mergeAgain unmergeAgain dchecks : Bool)
    (m : RasterThreadMerger Bool) (op : Op) (hc : coherent m)
    (hp : respectsPreconditions dchecks m op = true) :
    (∃ v m1, step (flagQueues mergeAgain unmergeAgain) dchecks m op = .ok v m1 ∧ coherent m1) ∨
    (∃ f, step (flagQueues mergeAgain unmergeAgain) dchecks m op = .fatal f m) := by
  obtain ⟨hne, hflag, hcalls⟩ := hc
  have hsame := RasterThreadMerger.TaskQueuesAreSame_of_ne m hne
  have hmerged := RasterThreadMerger.IsMergedUnSafe_of_ne m hne
  cases op with
  | MergeWithLease t =>
    simp only [respectsPreconditions, Bool.and_eq_true, decide_eq_true_eq] at hp
    obtain ⟨ht1, htmax⟩ := hp
    have htpos : 0 < t := ht1
    left
    by_cases hl : 0 < m.lease_term_
    · refine ⟨none, { m with notified := m.notified + 1 }, ?_, hne, hflag, hcalls⟩
      simp [step, RasterThreadMerger.MergeWithLease, hsame, hmerged, hl, htpos]
    · have hf : m.task_queues_ = false := by
        cases h : m.task_queues_
        · rfl
        · exact absurd (hflag.mp h) hl
      refine ⟨none,
        { m with
          task_queues_ := true
          registry_calls := m.registry_calls ++
            [(RegistryCall.Merge m.platform_queue_id_ m.gpu_queue_id_, false)]
          lease_term_ := (t : Int)
          notified := m.notified + 1 }, ?_, hne, ?_, ?_⟩
      · simp [step, RasterThreadMerger.MergeWithLease, hsame, hmerged, hl, htpos, hf, flagQueues,
          static_cast_int_of_le_INT_MAX t htmax]
      · simp only [true_iff]
        exact_mod_cast htpos
      · intro c hcmem
        rcases List.mem_append.mp hcmem with h | h
        · exact hcalls c h
        · rw [List.mem_singleton.mp h]; rfl
  | UnMergeNow =>
    simp only [respectsPreconditions, RasterThreadMerger.IsMerged, hmerged,
      decide_eq_true_eq] at hp
    have ht : m.task_queues_ = true := hflag.mpr hp
    left
    refine ⟨none,
      { m with
        lease_term_ := 0
        task_queues_ := false
        registry_calls := m.registry_calls ++
          [(RegistryCall.Unmerge m.platform_queue_id_, true)] }, ?_, hne, ?_, ?_⟩
    · simp [step, RasterThreadMerger.UnMergeNow, hsame, ht, flagQueues]
    · simp
    · intro c hcmem
      rcases List.mem_append.mp hcmem with h | h
      · exact hcalls c h
      · rw [List.mem_singleton.mp h]; rfl
  | ExtendLeaseTo t =>
    by_cases hl : 0 < m.lease_term_
    · left
      refine ⟨none, { m with lease_term_ := max m.lease_term_ (static_cast_int t) }, ?_,
        hne, ?_, hcalls⟩
      · simp [step, RasterThreadMerger.ExtendLeaseTo_of_merged dchecks m t hne hl]
      · have hpos : 0 < max m.lease_term_ (static_cast_int t) := lt_max_of_lt_left hl
        constructor
        · intro _; exact hpos
        · intro _; exact hflag.mpr hl
    · right
      simp only [respectsPreconditions, RasterThreadMerger.IsMerged, hmerged, hl,
        decide_False, Bool.or_false] at hp
      refine ⟨.extend_while_not_merged, ?_⟩
      simp [step, RasterThreadMerger.ExtendLeaseTo, hsame, hmerged, hl, hp]
  | DecrementLease =>
    left
    by_cases hl : 0 < m.lease_term_
    · by_cases h1 : m.lease_term_ = 1
      · have ht : m.task_queues_ = true := hflag.mpr hl
        refine ⟨some .kUnmergedNow,
          { m with
            lease_term_ := 0
            task_queues_ := false
            registry_calls := m.registry_calls ++
              [(RegistryCall.Unmerge m.platform_queue_id_, true)] }, ?_, hne, ?_, ?_⟩
        · simp [step, RasterThreadMerger.DecrementLease_of_eq_one _ dchecks m hne h1, ht,
            flagQueues]
        · simp
        · intro c hcmem
          rcases List.mem_append.mp hcmem with h | h
          · exact hcalls c h
          · rw [List.mem_singleton.mp h]; rfl
      · have hgt : 1 < m.lease_term_ := by omega
        refine ⟨some .kRemainsMerged, { m with lease_term_ := m.lease_term_ - 1 }, ?_,
          hne, ?_, hcalls⟩
        · simp [step, RasterThreadMerger.DecrementLease_of_one_lt _ dchecks m hne hgt]
        · have hpos : 0 < m.lease_term_ - 1 := by omega
          constructor
          · intro _; exact hpos
          · intro _; exact hflag.mpr hl
    · refine ⟨some .kRemainsUnmerged, m, ?_, hne, hflag, hcalls⟩
      simp [step, RasterThreadMerger.DecrementLease_of_not_pos _ dchecks m hne (not_lt.mp hl)]

/-- After a call that returned, the run continues from the state it returned in. -/
theorem run_state_of_step_ok (Q : MessageLoopTaskQueues R) (dchecks : Bool) (op : Op)
    (ops : List Op) (m m1 : RasterThreadMerger R) (v : Option RasterThreadStatus)
    (hstep : step Q dchecks m op = .ok v m1) :
    (run Q dchecks (op :: ops) m).state = (run Q dchecks ops m1).state := by
  rw [run, hstep]
  dsimp only
  cases h : run Q dchecks ops m1 <;> rfl

/-- A call that aborted ends the run in the state of the abort. -/
theorem run_state_of_step_fatal (Q : MessageLoopTaskQueues R) (dchecks : Bool) (op : Op)
    (ops : List Op) (m m1 : RasterThreadMerger R) (f : Fatal)
    (hstep : step Q dchecks m op = .fatal f m1) :
    (run Q dchecks (op :: ops) m).state = m1 := by
  rw [run, hstep]
  rfl

/-- A disciplined sequence of calls keeps the merger and the flag registry coherent. -/
theorem run_preserves_coherent (mergeAgain unmergeAgain dchecks : Bool) (ops : List Op) :
    ∀ m : RasterThreadMerger Bool, coherent m →
      disciplined (flagQueues mergeAgain unmergeAgain) dchecks ops m = true →
      coherent (run (flagQueues mergeAgain unmergeAgain) dchecks ops m).state := by
  induction ops with
  | nil => intro m hc _; exact hc
  | cons op ops ih =>
    intro m hc hd
    simp only [disciplined, Bool.and_eq_true] at hd
    obtain ⟨hp, hrest⟩ := hd
    rcases step_preserves_coherent mergeAgain unmergeAgain dchecks m op hc hp with
      ⟨v, m1, hstep, hc1⟩ | ⟨f, hstep⟩
    · rw [hstep] at hrest
      rw [run_state_of_step_ok _ dchecks op ops m m1 v hstep]
      exact ih m1 hc1 hrest
    · rw [run_state_of_step_fatal _ dchecks op ops m m f hstep]
      exact hc

/-- C5, refuted as stated: on a freshly constructed merger with distinct queues, whose
registry has the queues not fused, a first call `UnMergeNow()` issues
`Unmerge(platform)` all the same. -/
theorem C5_counterexample_unmerge_now_when_unmerged :
    RasterThreadMerger.construct (flagQueues false false) false 1 2 = .ok () freshMerger ∧
    (run (flagQueues false false) true [Op.UnMergeNow] freshMerger).state.registry_calls =
      [(RegistryCall.Unmerge 1, false)] ∧
    ¬ (∀ c ∈ (run (flagQueues false false) true [Op.UnMergeNow] freshMerger).state.registry_calls,
        inOrder c = true) := by
  decide

/-- Why the amended C5 bounds the `MergeWithLease` term: a term of `2^31` is stored as
a negative lease, so the next `MergeWithLease` issues `Merge` while the queues are
fused. -/
theorem merge_issued_while_fused_after_term_above_INT_MAX :
    (run (flagQueues true false) true [Op.MergeWithLease 2147483648, Op.MergeWithLease 1]
        freshMerger).state.registry_calls =
      [(RegistryCall.Merge 1 2, false), (RegistryCall.Merge 1 2, true)] := by
  decide

/-- Why the amended C5 asks that `ExtendLeaseTo` be called while merged in a build
without `FML_DCHECK`: called after the lease ran out, it makes the lease positive
without a `Merge`, and the decrement that ends that lease issues `Unmerge` while the
queues are not fused. -/
theorem unmerge_issued_while_not_fused_after_extend_when_unmerged :
    (run (flagQueues true false) false
        [Op.MergeWithLease 1, Op.DecrementLease, Op.ExtendLeaseTo 1, Op.DecrementLease]
        freshMerger).state.registry_calls =
      [(RegistryCall.Merge 1 2, false), (RegistryCall.Unmerge 1, true),
        (RegistryCall.Unmerge 1, false)] := by
  decide

/-- C5, amended: with distinct queues and the registry a fused/not-fused flag that
starts not fused, construction succeeds, and in every sequence of `MergeWithLease`,
`ExtendLeaseTo`, `DecrementLease` and `UnMergeNow` calls from construction in which each
call respects its precondition (`MergeWithLease` terms between `1` and `INT_MAX`;
`UnMergeNow` only while merged; `ExtendLeaseTo` only while merged, unless `FML_DCHECK`
is active), every `Merge` is issued while the queues are not fused and every `Unmerge`
while they are fused. -/
theorem C5_disciplined_calls_reach_registry_in_order (mergeAgain unmergeAgain dchecks : Bool)
    (platform raster : TaskQueueId) (ops : List Op) (hne : platform ≠ raster)
    (hd : disciplined (flagQueues mergeAgain unmergeAgain) dchecks ops
      (RasterThreadMerger.construct (flagQueues mergeAgain unmergeAgain) false
        platform raster).state = true) :
    (RasterThreadMerger.construct (flagQueues mergeAgain unmergeAgain) false
      platform raster).isFatal = false ∧
    ∀ c ∈ (run (flagQueues mergeAgain unmergeAgain) dchecks ops
        (RasterThreadMerger.construct (flagQueues mergeAgain unmergeAgain) false
          platform raster).state).state.registry_calls,
      inOrder c = true := by
  have hcons : RasterThreadMerger.construct (flagQueues mergeAgain unmergeAgain) false
      platform raster =
      .ok ()
        { platform_queue_id_ := platform
          gpu_queue_id_ := raster
          task_queues_ := false
          lease_term_ := kLeaseNotSet
          registry_calls := []
          notified := 0 } := by
    simp [RasterThreadMerger.construct, flagQueues]
  rw [hcons] at hd ⊢
  refine ⟨rfl, ?_⟩
  have hc : coherent
      ({ platform_queue_id_ := platform
         gpu_queue_id_ := raster
         task_queues_ := false
         lease_term_ := kLeaseNotSet
         registry_calls := []
         notified := 0 } : RasterThreadMerger Bool) := by
    refine ⟨hne, ?_, ?_⟩
    · simp [kLeaseNotSet]
    · intro c hcmem
      exact absurd hcmem (List.not_mem_nil c)
  exact (run_preserves_coherent mergeAgain unmergeAgain dchecks ops _ hc hd).2.2

/-- Instance of C5: merge for two units, extend to three, retire them, merge again and
force the unmerge. -/
theorem C5_disciplined_calls_reach_registry_in_order_witness :
    (RasterThreadMerger.construct (flagQueues true false) false 1 2).isFatal = false ∧
    ∀ c ∈ (run (flagQueues true false) true
        [Op.MergeWithLease 2, Op.ExtendLeaseTo 3, Op.DecrementLease, Op.DecrementLease,
          Op.DecrementLease, Op.DecrementLease, Op.MergeWithLease 1, Op.UnMergeNow]
        (RasterThreadMerger.construct (flagQueues true false) false 1 2).state).state.registry_calls,
      inOrder c = true :=
  C5_disciplined_calls_reach_registry_in_order true false true 1 2
    [Op.MergeWithLease 2, Op.ExtendLeaseTo 3, Op.DecrementLease, Op.DecrementLease,
      Op.DecrementLease, Op.DecrementLease, Op.MergeWithLease 1, Op.UnMergeNow]
    (by decide) (by decide)

/-- On an unmerged coordinator with distinct queues, `MergeWithLease` with a term
between `1` and `INT_MAX` issues `Merge`, and if the registry reports success it stores
the term and notifies. -/
theorem RasterThreadMerger.MergeWithLease_of_unmerged (Q : MessageLoopTaskQueues R)
    (dchecks : Bool) (m : RasterThreadMerger R) (t : Nat)
    (hne : m.platform_queue_id_ ≠ m.gpu_queue_id_) (hun : ¬ 0 < m.lease_term_)
    (ht : 1 ≤ t) (htmax : (t : Int) ≤ INT_MAX)
    (hM : (Q.Merge m.task_queues_ m.platform_queue_id_ m.gpu_queue_id_).1 = true) :
    RasterThreadMerger.MergeWithLease Q dchecks m t =
      .ok ()
        { m with
          task_queues_ := (Q.Merge m.task_queues_ m.platform_queue_id_ m.gpu_queue_id_).2
          registry_calls := m.registry_calls ++
            [(RegistryCall.Merge m.platform_queue_id_ m.gpu_queue_id_, m.task_queues_)]
          lease_term_ := (t : Int)
          notified := m.notified + 1 } := by
  have htpos : 0 < t := ht
  simp [RasterThreadMerger.MergeWithLease, RasterThreadMerger.TaskQueuesAreSame_of_ne m hne,
    RasterThreadMerger.IsMergedUnSafe_of_ne m hne, hun, htpos, hM,
    static_cast_int_of_le_INT_MAX t htmax]

/-- On a merged coordinator with distinct queues, `MergeWithLease` with a positive term
only notifies. -/
theorem RasterThreadMerger.MergeWithLease_of_merged (Q : MessageLoopTaskQueues R)
    (dchecks : Bool) (m : RasterThreadMerger R) (t : Nat)
    (hne : m.platform_queue_id_ ≠ m.gpu_queue_id_) (hl : 0 < m.lease_term_) (ht : 0 < t) :
    RasterThreadMerger.MergeWithLease Q dchecks m t =
      .ok () { m with notified := m.notified + 1 } := by
  simp [RasterThreadMerger.MergeWithLease, RasterThreadMerger.TaskQueuesAreSame_of_ne m hne,
    RasterThreadMerger.IsMergedUnSafe_of_ne m hne, hl, ht]

/-- C6, refuted as stated: the term `2^31` fits the `size_t` parameter, the registry
merges the queues, but the lease stored is `-2^31`, not the term, and `IsMerged()` is
false on return. -/
theorem C6_counterexample_term_two_pow_31 :
    RasterThreadMerger.MergeWithLease (flagQueues false false) true freshMerger 2147483648 =
      .ok ()
        { freshMerger with
          task_queues_ := true
          registry_calls := [(RegistryCall.Merge 1 2, false)]
          lease_term_ := -2147483648
          notified := 1 } ∧
    (RasterThreadMerger.MergeWithLease (flagQueues false false) true freshMerger
        2147483648).state.lease_term_ ≠ ((2147483648 : Nat) : Int) ∧
    RasterThreadMerger.IsMerged
      (RasterThreadMerger.MergeWithLease (flagQueues false false) true freshMerger
        2147483648).state = false := by
  decide

/-- C6, amended: with distinct queues, an unmerged state and a term between `1` and
`INT_MAX`, `MergeWithLease(term)` issues exactly one registry call, the `Merge` of the
two queues, and when the registry reports success it returns with the lease equal to
the term and `IsMerged()` true. -/
theorem C6_merge_with_lease_stores_term (Q : MessageLoopTaskQueues R) (dchecks : Bool)
    (m : RasterThreadMerger R) (t : Nat)
    (hne : m.platform_queue_id_ ≠ m.gpu_queue_id_) (hun : ¬ 0 < m.lease_term_)
    (ht : 1 ≤ t) (htmax : (t : Int) ≤ INT_MAX)
    (hM : (Q.Merge m.task_queues_ m.platform_queue_id_ m.gpu_queue_id_).1 = true) :
    ∃ m1 : RasterThreadMerger R,
      RasterThreadMerger.MergeWithLease Q dchecks m t = .ok () m1 ∧
      m1.lease_term_ = (t : Int) ∧
      RasterThreadMerger.IsMerged m1 = true ∧
      m1.registry_calls = m.registry_calls ++
        [(RegistryCall.Merge m.platform_queue_id_ m.gpu_queue_id_, m.task_queues_)] := by
  refine ⟨_, RasterThreadMerger.MergeWithLease_of_unmerged Q dchecks m t hne hun ht htmax hM,
    rfl, ?_, rfl⟩
  have htpos : (0 : Int) < (t : Int) := by exact_mod_cast ht
  simp [RasterThreadMerger.IsMerged, RasterThreadMerger.IsMergedUnSafe, htpos]

/-- Instance of C6: the largest term, `INT_MAX`, on a fresh merger. -/
theorem C6_merge_with_lease_stores_term_witness :
    ∃ m1 : RasterThreadMerger Bool,
      RasterThreadMerger.MergeWithLease (flagQueues false false) true freshMerger 2147483647 =
        .ok () m1 ∧
      m1.lease_term_ = ((2147483647 : Nat) : Int) ∧
      RasterThreadMerger.IsMerged m1 = true ∧
      m1.registry_calls = freshMerger.registry_calls ++
        [(RegistryCall.Merge freshMerger.platform_queue_id_ freshMerger.gpu_queue_id_,
          freshMerger.task_queues_)] :=
  C6_merge_with_lease_stores_term (flagQueues false false) true freshMerger 2147483647
    (by decide) (by decide) (by decide) (by decide) (by decide)

/-- Repeated `MergeWithLease` calls with positive terms on a merged coordinator only
notify. -/
theorem run_merges_of_merged (Q : MessageLoopTaskQueues R) (dchecks : Bool) (ts : List Nat) :
    ∀ m : RasterThreadMerger R, m.platform_queue_id_ ≠ m.gpu_queue_id_ → 0 < m.lease_term_ →
      (∀ t ∈ ts, 0 < t) →
      run Q dchecks (ts.map Op.MergeWithLease) m =
        .ok (List.replicate ts.length none) { m with notified := m.notified + ts.length } := by
  induction ts with
  | nil => intro m _ _ _; rfl
  | cons t ts ih =>
    intro m hne hl hts
    have ht : 0 < t := hts t (List.mem_cons_self t ts)
    have hrest := ih { m with notified := m.notified + 1 } hne hl
      (fun u hu => hts u (List.mem_cons_of_mem t hu))
    simp only [List.map_cons, run, step,
      RasterThreadMerger.MergeWithLease_of_merged Q dchecks m t hne hl ht, hrest,
      List.length_cons, List.replicate_succ]
    congr 2
    omega

/-- C7, refuted as stated: a first term of `2^31` is stored as a negative lease, so the
second `MergeWithLease` of the run issues `Merge` again, and the run ends with the
lease `1`, not the first term. -/
theorem C7_counterexample_first_term_two_pow_31 :
    run (flagQueues true false) true [Op.MergeWithLease 2147483648, Op.MergeWithLease 1]
        freshMerger =
      .ok [none, none]
        { freshMerger with
          task_queues_ := true
          registry_calls := [(RegistryCall.Merge 1 2, false), (RegistryCall.Merge 1 2, true)]
          lease_term_ := 1
          notified := 2 } := by
  decide

/-- C7, amended: with distinct queues, `MergeWithLease(t)` on a merged state with lease
`l > 0` returns, for every positive `t`, with the lease still `l` and no registry call
issued (only the notification is sent).  Hence a run `MergeWithLease(t1)`, ...,
`MergeWithLease(tk)` from an unmerged state, with `1 ≤ t1 ≤ INT_MAX` and the other
terms positive, issues exactly one registry call, the `Merge`, and ends with the lease
`t1` (the registry reporting success for that `Merge`). -/
theorem C7_merge_with_lease_keeps_running_lease (Q : MessageLoopTaskQueues R) (dchecks : Bool)
    (m : RasterThreadMerger R) (t1 : Nat) (ts : List Nat)
    (hne : m.platform_queue_id_ ≠ m.gpu_queue_id_) (hun : ¬ 0 < m.lease_term_)
    (ht1 : 1 ≤ t1) (ht1max : (t1 : Int) ≤ INT_MAX) (hts : ∀ t ∈ ts, 0 < t)
    (hM : (Q.Merge m.task_queues_ m.platform_queue_id_ m.gpu_queue_id_).1 = true) :
    (∀ (m0 : RasterThreadMerger R) (t : Nat),
      m0.platform_queue_id_ ≠ m0.gpu_queue_id_ → 0 < m0.lease_term_ → 0 < t →
      RasterThreadMerger.MergeWithLease Q dchecks m0 t =
        .ok () { m0 with notified := m0.notified + 1 }) ∧
    run Q dchecks ((t1 :: ts).map Op.MergeWithLease) m =
      .ok (List.replicate (ts.length + 1) none)
        { m with
          task_queues_ := (Q.Merge m.task_queues_ m.platform_queue_id_ m.gpu_queue_id_).2
          registry_calls := m.registry_calls ++
            [(RegistryCall.Merge m.platform_queue_id_ m.gpu_queue_id_, m.task_queues_)]
          lease_term_ := (t1 : Int)
          notified := m.notified + 1 + ts.length } := by
  refine ⟨fun m0 t h0 hl ht =>
    RasterThreadMerger.MergeWithLease_of_merged Q dchecks m0 t h0 hl ht, ?_⟩
  have hfirst := RasterThreadMerger.MergeWithLease_of_unmerged Q dchecks m t1 hne hun ht1 ht1max hM
  have ht1pos : (0 : Int) < (t1 : Int) := by exact_mod_cast ht1
  have hrest := run_merges_of_merged Q dchecks ts
    { m with
      task_queues_ := (Q.Merge m.task_queues_ m.platform_queue_id_ m.gpu_queue_id_).2
      registry_calls := m.registry_calls ++
        [(RegistryCall.Merge m.platform_queue_id_ m.gpu_queue_id_, m.task_queues_)]
      lease_term_ := (t1 : Int)
      notified := m.notified + 1 } hne ht1pos hts
  simp only [List.map_cons, run, step, hfirst, hrest, List.replicate_succ]

/-- Instance of C7: three merge requests with terms `4`, `9` and `2` on a fresh merger. -/
theorem C7_merge_with_lease_keeps_running_lease_witness :
    run (flagQueues false false) true ([4, 9, 2].map Op.MergeWithLease) freshMerger =
      .ok [none, none, none]
        { freshMerger with
          task_queues_ := true
          registry_calls := [(RegistryCall.Merge 1 2, false)]
          lease_term_ := 4
          notified := 3 } :=
  (C7_merge_with_lease_keeps_running_lease (flagQueues false false) true freshMerger 4 [9, 2]
    (by decide) (by decide) (by decide) (by decide) (by decide) (by decide)).2

/-- In a build without `FML_DCHECK` the assertion of `ExtendLeaseTo` does not exist and
the call always returns. -/
theorem RasterThreadMerger.ExtendLeaseTo_returns_without_dchecks (m : RasterThreadMerger R)
    (t : Nat) : (RasterThreadMerger.ExtendLeaseTo false m t).isFatal = false := by
  unfold RasterThreadMerger.ExtendLeaseTo
  split
  · rfl
  · simp only [Bool.false_and, Bool.false_eq_true, if_false]
    split <;> rfl

/-- C8, refuted as stated: in a build without `FML_DCHECK`, `ExtendLeaseTo(4)` on a fresh
merger, which is not merged, raises nothing and returns. -/
theorem C8_counterexample_no_assertion_without_dchecks :
    RasterThreadMerger.IsMerged freshMerger = false ∧
    RasterThreadMerger.ExtendLeaseTo false freshMerger 4 = .ok () freshMerger ∧
    ¬ ((RasterThreadMerger.ExtendLeaseTo false freshMerger 4).isFatal = true ↔
        RasterThreadMerger.IsMerged freshMerger = false) := by
  decide

/-- C8, amended: with distinct queues, `ExtendLeaseTo(t)` aborts on its assertion if and
only if the build has `FML_DCHECK` compiled in and the coordinator is not merged at the
call, that is the lease is not positive (`kLeaseNotSet` or `0`); in a build without
`FML_DCHECK` it never aborts.  When it aborts, the object is as it was before the call:
the lease is unchanged and no registry call has been added. -/
theorem C8_extend_lease_asserts_iff_dchecks_and_unmerged (dchecks : Bool)
    (m : RasterThreadMerger R) (t : Nat)
    (hne : m.platform_queue_id_ ≠ m.gpu_queue_id_) :
    ((RasterThreadMerger.ExtendLeaseTo dchecks m t).isFatal = true ↔
      dchecks = true ∧ RasterThreadMerger.IsMerged m = false) ∧
    (RasterThreadMerger.IsMerged m = false ↔ m.lease_term_ ≤ 0) ∧
    ((RasterThreadMerger.ExtendLeaseTo dchecks m t).isFatal = true →
      RasterThreadMerger.ExtendLeaseTo dchecks m t = .fatal .extend_while_not_merged m ∧
      (RasterThreadMerger.ExtendLeaseTo dchecks m t).state.lease_term_ = m.lease_term_ ∧
      (RasterThreadMerger.ExtendLeaseTo dchecks m t).state.registry_calls = m.registry_calls) := by
  have hsame := RasterThreadMerger.TaskQueuesAreSame_of_ne m hne
  have hmerged := RasterThreadMerger.IsMergedUnSafe_of_ne m hne
  have hiff : RasterThreadMerger.IsMerged m = false ↔ m.lease_term_ ≤ 0 := by
    simp [RasterThreadMerger.IsMerged, hmerged]
  cases dchecks with
  | false =>
    have hret := RasterThreadMerger.ExtendLeaseTo_returns_without_dchecks m t
    refine ⟨?_, hiff, ?_⟩
    · simp [hret]
    · intro h
      rw [hret] at h
      exact absurd h (by decide)
  | true =>
    by_cases hl : 0 < m.lease_term_
    · have hrun := RasterThreadMerger.ExtendLeaseTo_of_merged true m t hne hl
      have hnle : ¬ m.lease_term_ ≤ 0 := not_le.mpr hl
      simp [hrun, Outcome.isFatal, RasterThreadMerger.IsMerged, hmerged, hl]
    · have hrun : RasterThreadMerger.ExtendLeaseTo true m t =
          .fatal .extend_while_not_merged m := by
        simp [RasterThreadMerger.ExtendLeaseTo, hsame, hmerged, hl]
      have hle : m.lease_term_ ≤ 0 := not_lt.mp hl
      simp [hrun, Outcome.isFatal, Outcome.state, RasterThreadMerger.IsMerged, hmerged, hl, hle]

/-- Instance of C8: with `FML_DCHECK`, `ExtendLeaseTo(4)` on a fresh merger aborts and
leaves it as it was. -/
theorem C8_extend_lease_asserts_iff_dchecks_and_unmerged_witness :
    RasterThreadMerger.ExtendLeaseTo true freshMerger 4 =
      .fatal .extend_while_not_merged freshMerger :=
  ((C8_extend_lease_asserts_iff_dchecks_and_unmerged true freshMerger 4 (by decide)).2.2
    (by decide)).1

/-- C9: for distinct queue ids for which the registry's `Owns(platform, raster)` is
false, construction succeeds, issues no registry call (so no `Merge`), and leaves the
lease at `kLeaseNotSet`; on the constructed object `IsMerged()` is false and
`IsOnRasterizingThread()` is true for a caller whose current queue is the raster
queue. -/
theorem C9_constructed_merger_is_unmerged (Q : MessageLoopTaskQueues R) (r : R)
    (platform raster : TaskQueueId) (hne : platform ≠ raster)
    (howns : Q.Owns r platform raster = false) :
    ∃ m : RasterThreadMerger R,
      RasterThreadMerger.construct Q r platform raster = .ok () m ∧
      m.platform_queue_id_ = platform ∧ m.gpu_queue_id_ = raster ∧
      m.registry_calls = [] ∧ m.task_queues_ = r ∧
      m.lease_term_ = kLeaseNotSet ∧
      RasterThreadMerger.IsMerged m = false ∧
      RasterThreadMerger.IsOnRasterizingThread m raster = true := by
  refine ⟨{ platform_queue_id_ := platform
            gpu_queue_id_ := raster
            task_queues_ := r
            lease_term_ := kLeaseNotSet
            registry_calls := []
            notified := 0 }, ?_, rfl, rfl, rfl, rfl, rfl, ?_, ?_⟩
  · simp [RasterThreadMerger.construct, howns]
  · simp [RasterThreadMerger.IsMerged, RasterThreadMerger.IsMergedUnSafe,
      RasterThreadMerger.TaskQueuesAreSame, hne, kLeaseNotSet]
  · have hne2 : ¬ raster = platform := fun h => hne h.symm
    simp [RasterThreadMerger.IsOnRasterizingThread, RasterThreadMerger.IsOnPlatformThread,
      RasterThreadMerger.IsMergedUnSafe, RasterThreadMerger.TaskQueuesAreSame, hne, hne2,
      kLeaseNotSet]

/-- Instance of C9: platform queue `1`, raster queue `2`, registry flag not fused. -/
theorem C9_constructed_merger_is_unmerged_witness :
    ∃ m : RasterThreadMerger Bool,
      RasterThreadMerger.construct (flagQueues false false) false 1 2 = .ok () m ∧
      m.platform_queue_id_ = 1 ∧ m.gpu_queue_id_ = 2 ∧
      m.registry_calls = [] ∧ m.task_queues_ = false ∧
      m.lease_term_ = kLeaseNotSet ∧
      RasterThreadMerger.IsMerged m = false ∧
      RasterThreadMerger.IsOnRasterizingThread m 2 = true :=
  C9_constructed_merger_is_unmerged (flagQueues false false) false 1 2 (by decide) (by decide)

/-- C10: in every state and for every current queue id `c`, `IsOnPlatformThread()` is
true iff `c` is the platform id, and `IsOnRasterizingThread()` equals
`IsOnPlatformThread()` when the coordinator is merged (lease positive, or platform id
equal to raster id) and its negation otherwise.  Both are functions of the object and
`c` alone and return only the answer, so they leave the lease (and every other member)
as it is. -/
theorem C10_thread_queries (m : RasterThreadMerger R) (c : TaskQueueId) :
    (RasterThreadMerger.IsOnPlatformThread m c = true ↔ c = m.platform_queue_id_) ∧
    ((0 < m.lease_term_ ∨ m.platform_queue_id_ = m.gpu_queue_id_) →
      RasterThreadMerger.IsMerged m = true ∧
      RasterThreadMerger.IsOnRasterizingThread m c = RasterThreadMerger.IsOnPlatformThread m c) ∧
    (¬ (0 < m.lease_term_ ∨ m.platform_queue_id_ = m.gpu_queue_id_) →
      RasterThreadMerger.IsMerged m = false ∧
      RasterThreadMerger.IsOnRasterizingThread m c =
        !RasterThreadMerger.IsOnPlatformThread m c) := by
  refine ⟨?_, ?_, ?_⟩
  · simp [RasterThreadMerger.IsOnPlatformThread]
  · intro h
    have hm : RasterThreadMerger.IsMergedUnSafe m = true := by
      simpa [RasterThreadMerger.IsMergedUnSafe, RasterThreadMerger.TaskQueuesAreSame] using h
    simp [RasterThreadMerger.IsMerged, RasterThreadMerger.IsOnRasterizingThread, hm]
  · intro h
    have hm : RasterThreadMerger.IsMergedUnSafe m = false := by
      rw [← Bool.not_eq_true]
      simpa [RasterThreadMerger.IsMergedUnSafe, RasterThreadMerger.TaskQueuesAreSame] using h
    simp [RasterThreadMerger.IsMerged, RasterThreadMerger.IsOnRasterizingThread, hm]

/-- Instance of C10: a caller on the platform queue of a merged coordinator, and a
caller on the raster queue of a fresh one. -/
theorem C10_thread_queries_witness :
    RasterThreadMerger.IsOnRasterizingThread (mergedMerger 3) 1 =
      RasterThreadMerger.IsOnPlatformThread (mergedMerger 3) 1 ∧
    RasterThreadMerger.IsOnRasterizingThread freshMerger 2 =
      !RasterThreadMerger.IsOnPlatformThread freshMerger 2 :=
  ⟨((C10_thread_queries (mergedMerger 3) 1).2.1 (Or.inl (by decide))).2,
    ((C10_thread_queries freshMerger 2).2.2 (by decide)).2⟩

/-- C13: with distinct queues, in every state, `DecrementLease()` issues the external
`Unmerge` if and only if the lease was exactly `1` before the call; then exactly one
call, `Unmerge(platform)`, is issued and the lease ends at `0`.  A call that returns
does so with `kUnmergedNow` if and only if the lease was `1` (it returns whenever the
registry reports success for the `Unmerge`).  A call that returns `kRemainsMerged` has
lowered the lease by exactly one to a value that is still positive and has issued no
registry call. -/
theorem C13_decrement_lease_unmerges_exactly_at_one (Q : MessageLoopTaskQueues R)
    (dchecks : Bool) (m : RasterThreadMerger R)
    (hne : m.platform_queue_id_ ≠ m.gpu_queue_id_) :
    ((RasterThreadMerger.DecrementLease Q dchecks m).state.registry_calls =
        m.registry_calls ++ [(RegistryCall.Unmerge m.platform_queue_id_, m.task_queues_)] ↔
      m.lease_term_ = 1) ∧
    (m.lease_term_ ≠ 1 →
      (RasterThreadMerger.DecrementLease Q dchecks m).state.registry_calls = m.registry_calls) ∧
    (m.lease_term_ = 1 →
      (RasterThreadMerger.DecrementLease Q dchecks m).state.lease_term_ = 0) ∧
    (∀ (s : RasterThreadStatus) (m1 : RasterThreadMerger R),
      RasterThreadMerger.DecrementLease Q dchecks m = .ok s m1 →
        (s = .kUnmergedNow ↔ m.lease_term_ = 1)) ∧
    (m.lease_term_ = 1 → (Q.Unmerge m.task_queues_ m.platform_queue_id_).1 = true →
      ∃ m1, RasterThreadMerger.DecrementLease Q dchecks m = .ok .kUnmergedNow m1) ∧
    (∀ m1 : RasterThreadMerger R,
      RasterThreadMerger.DecrementLease Q dchecks m = .ok .kRemainsMerged m1 →
        m1.lease_term_ = m.lease_term_ - 1 ∧ 0 < m1.lease_term_ ∧
        m1.registry_calls = m.registry_calls ∧ m1.task_queues_ = m.task_queues_) := by
  have hnoapp : ¬ (m.registry_calls =
      m.registry_calls ++ [(RegistryCall.Unmerge m.platform_queue_id_, m.task_queues_)]) := by
    intro h
    have hlen := congrArg List.length h
    simp at hlen
  rcases lt_trichotomy m.lease_term_ 1 with hlt | heq | hgt
  · have hle : m.lease_term_ ≤ 0 := by omega
    have hne1 : m.lease_term_ ≠ 1 := by omega
    have hrun := RasterThreadMerger.DecrementLease_of_not_pos Q dchecks m hne hle
    rw [hrun]
    refine ⟨⟨fun h => absurd h hnoapp, fun h => absurd h hne1⟩, fun _ => rfl,
      fun h => absurd h hne1, ?_, fun h => absurd h hne1, ?_⟩
    · intro s m1 h
      cases h
      simp [hne1]
    · intro m1 h
      cases h
  · have hrun := RasterThreadMerger.DecrementLease_of_eq_one Q dchecks m hne heq
    rw [hrun]
    cases hU : (Q.Unmerge m.task_queues_ m.platform_queue_id_).1
    · simp [Outcome.state, heq]
    · simp [Outcome.state, heq]
  · have hne1 : m.lease_term_ ≠ 1 := by omega
    have hrun := RasterThreadMerger.DecrementLease_of_one_lt Q dchecks m hne hgt
    rw [hrun]
    refine ⟨⟨fun h => absurd h hnoapp, fun h => absurd h hne1⟩, fun _ => rfl,
      fun h => absurd h hne1, ?_, fun h => absurd h hne1, ?_⟩
    · intro s m1 h
      cases h
      simp [hne1]
    · intro m1 h
      cases h
      exact ⟨rfl, by show 0 < m.lease_term_ - 1; omega, rfl, rfl⟩

/-- Instance of C13: the last unit of a lease is retired. -/
theorem C13_decrement_lease_unmerges_exactly_at_one_witness :
    ∃ m1, RasterThreadMerger.DecrementLease (flagQueues false false) true (mergedMerger 1) =
      .ok .kUnmergedNow m1 :=
  (C13_decrement_lease_unmerges_exactly_at_one (flagQueues false false) true (mergedMerger 1)
    (by decide)).2.2.2.2.1 (by decide) (by decide)

/-- Surplus decrements: on a coordinator whose lease is not positive, any number of
`DecrementLease()` calls return `kRemainsUnmerged` and leave the object as it is. -/
theorem decrementTimes_of_not_pos (Q : MessageLoopTaskQueues R) (dchecks : Bool)
    (m : RasterThreadMerger R) (hne : m.platform_queue_id_ ≠ m.gpu_queue_id_)
    (hl : m.lease_term_ ≤ 0) (n : Nat) :
    decrementTimes Q dchecks n m =
      .ok (List.replicate n (RasterThreadStatus.kRemainsUnmerged, false)) m := by
  have hnot : ¬ 0 < m.lease_term_ := not_lt.mpr hl
  induction n with
  | zero => rfl
  | succ n ih =>
    simp [decrementTimes, RasterThreadMerger.DecrementLease_of_not_pos Q dchecks m hne hl, ih,
      RasterThreadMerger.IsMerged, RasterThreadMerger.IsMergedUnSafe_of_ne m hne, hnot,
      List.replicate_succ]

/-- The assertion `FML_DCHECK(lease_term_ > 0)` of `DecrementLease` never aborts a call. -/
theorem RasterThreadMerger.DecrementLease_assertion_holds (Q : MessageLoopTaskQueues R)
    (dchecks : Bool) (m : RasterThreadMerger R) (s : RasterThreadMerger R) :
    RasterThreadMerger.DecrementLease Q dchecks m ≠ .fatal .lease_not_positive_when_merged s := by
  by_cases hsame : m.platform_queue_id_ = m.gpu_queue_id_
  · have h : RasterThreadMerger.TaskQueuesAreSame m = true := by
      simp [RasterThreadMerger.TaskQueuesAreSame, hsame]
    simp [RasterThreadMerger.DecrementLease, h]
  · rcases lt_trichotomy m.lease_term_ 1 with hlt | heq | hgt
    · rw [RasterThreadMerger.DecrementLease_of_not_pos Q dchecks m hsame (by omega)]
      simp
    · rw [RasterThreadMerger.DecrementLease_of_eq_one Q dchecks m hsame heq]
      split <;> simp
    · rw [RasterThreadMerger.DecrementLease_of_one_lt Q dchecks m hsame hgt]
      simp

/-- A lease that is not negative stays so under any number of `DecrementLease()` calls,
whether they return or the last one is aborted by a failing `Unmerge`. -/
theorem decrementTimes_lease_nonneg (Q : MessageLoopTaskQueues R) (dchecks : Bool) (n : Nat) :
    ∀ m : RasterThreadMerger R, m.platform_queue_id_ ≠ m.gpu_queue_id_ → 0 ≤ m.lease_term_ →
      0 ≤ (decrementTimes Q dchecks n m).state.lease_term_ := by
  induction n with
  | zero => intro m _ h; exact h
  | succ n ih =>
    intro m hne h0
    rcases lt_trichotomy m.lease_term_ 1 with hlt | heq | hgt
    · rw [decrementTimes_of_not_pos Q dchecks m hne (by omega)]
      exact h0
    · rw [decrementTimes, RasterThreadMerger.DecrementLease_of_eq_one Q dchecks m hne heq]
      cases hU : (Q.Unmerge m.task_queues_ m.platform_queue_id_).1
      · simp [Outcome.state]
      · have hrest := decrementTimes_of_not_pos Q dchecks
          { m with
            lease_term_ := 0
            task_queues_ := (Q.Unmerge m.task_queues_ m.platform_queue_id_).2
            registry_calls := m.registry_calls ++
              [(RegistryCall.Unmerge m.platform_queue_id_, m.task_queues_)] } hne (le_refl _) n
        simp [hrest, Outcome.state]
    · have hih := ih { m with lease_term_ := m.lease_term_ - 1 } hne
        (by show 0 ≤ m.lease_term_ - 1; omega)
      rw [decrementTimes, RasterThreadMerger.DecrementLease_of_one_lt Q dchecks m hne hgt]
      dsimp only
      cases hrun : decrementTimes Q dchecks n { m with lease_term_ := m.lease_term_ - 1 } with
      | ok rest m2 => rw [hrun] at hih; exact hih
      | fatal f m2 => rw [hrun] at hih; exact hih

/-- C15: with distinct queues, `DecrementLease()` on an unmerged coordinator (lease
`kLeaseNotSet` or `0`) returns `kRemainsUnmerged` and leaves the object as it is: the
lease keeps its value (`kLeaseNotSet` stays `kLeaseNotSet`) and no registry call is
issued.  Hence any number of surplus calls does the same, a lease that is not negative
is never driven below zero by `DecrementLease()` calls, and the assertion
`lease_term_ > 0` inside `DecrementLease` never aborts a call. -/
theorem C15_surplus_decrements_are_inert (Q : MessageLoopTaskQueues R) (dchecks : Bool)
    (m : RasterThreadMerger R) (hne : m.platform_queue_id_ ≠ m.gpu_queue_id_)
    (hun : m.lease_term_ = kLeaseNotSet ∨ m.lease_term_ = 0) :
    RasterThreadMerger.DecrementLease Q dchecks m = .ok .kRemainsUnmerged m ∧
    (∀ n : Nat, decrementTimes Q dchecks n m =
      .ok (List.replicate n (RasterThreadStatus.kRemainsUnmerged, false)) m) ∧
    (∀ (n : Nat) (m0 : RasterThreadMerger R), m0.platform_queue_id_ ≠ m0.gpu_queue_id_ →
      0 ≤ m0.lease_term_ → 0 ≤ (decrementTimes Q dchecks n m0).state.lease_term_) ∧
    (∀ m0 s : RasterThreadMerger R,
      RasterThreadMerger.DecrementLease Q dchecks m0 ≠ .fatal .lease_not_positive_when_merged s) := by
  have hle : m.lease_term_ ≤ 0 := by
    rcases hun with h | h <;> simp [h, kLeaseNotSet]
  exact ⟨RasterThreadMerger.DecrementLease_of_not_pos Q dchecks m hne hle,
    fun n => decrementTimes_of_not_pos Q dchecks m hne hle n,
    fun n m0 h0 hl => decrementTimes_lease_nonneg Q dchecks n m0 h0 hl,
    fun m0 s => RasterThreadMerger.DecrementLease_assertion_holds Q dchecks m0 s⟩

/-- Instance of C15: four decrements of a merger that was never merged. -/
theorem C15_surplus_decrements_are_inert_witness :
    decrementTimes (flagQueues false false) true 4 freshMerger =
      .ok (List.replicate 4 (RasterThreadStatus.kRemainsUnmerged, false)) freshMerger :=
  (C15_surplus_decrements_are_inert (flagQueues false false) true freshMerger
    (by decide) (by decide)).2.1 4

/-- C16: with distinct queues, a merged state with lease `l > 0` and any `size_t` term
`t` (zero, or `2^31` and above, included; conversions to `int` wrap modulo `2^32`),
`ExtendLeaseTo(t)` returns with a lease that is at least `l`, hence positive, with
`IsMerged()` still true, and with no registry call issued and the registry untouched. -/
theorem C16_extend_lease_never_shortens (dchecks : Bool) (m : RasterThreadMerger R) (t : Nat)
    (hne : m.platform_queue_id_ ≠ m.gpu_queue_id_) (hl : 0 < m.lease_term_) :
    ∃ m1 : RasterThreadMerger R,
      RasterThreadMerger.ExtendLeaseTo dchecks m t = .ok () m1 ∧
      m.lease_term_ ≤ m1.lease_term_ ∧ 0 < m1.lease_term_ ∧
      RasterThreadMerger.IsMerged m1 = true ∧
      m1.registry_calls = m.registry_calls ∧ m1.task_queues_ = m.task_queues_ := by
  have hpos : 0 < max m.lease_term_ (static_cast_int t) := lt_max_of_lt_left hl
  refine ⟨_, RasterThreadMerger.ExtendLeaseTo_of_merged dchecks m t hne hl,
    le_max_left _ _, hpos, ?_, rfl, rfl⟩
  simp [RasterThreadMerger.IsMerged, RasterThreadMerger.IsMergedUnSafe, hpos]

/-- Instance of C16: a lease of `5` and the term `2^32 - 1`, which reads as `-1`. -/
theorem C16_extend_lease_never_shortens_witness :
    ∃ m1 : RasterThreadMerger Bool,
      RasterThreadMerger.ExtendLeaseTo true (mergedMerger 5) 4294967295 = .ok () m1 ∧
      (mergedMerger 5).lease_term_ ≤ m1.lease_term_ ∧ 0 < m1.lease_term_ ∧
      RasterThreadMerger.IsMerged m1 = true ∧
      m1.registry_calls = (mergedMerger 5).registry_calls ∧
      m1.task_queues_ = (mergedMerger 5).task_queues_ :=
  C16_extend_lease_never_shortens true (mergedMerger 5) 4294967295 (by decide) (by decide)

/-- C18: with distinct queues and the registry answering as it likes: `MergeWithLease(t)`
with `t > 0` aborts if and only if the coordinator is unmerged at the call and the
external `Merge` reports failure, and then the lease is the one from before the call
(still `kLeaseNotSet` or `0` if it was); `UnMergeNow()` aborts if and only if the external
`Unmerge` reports failure; `DecrementLease()` aborts if and only if the lease was exactly
`1` and the external `Unmerge` reports failure. -/
theorem C18_fatal_exactly_on_registry_failure (Q : MessageLoopTaskQueues R) (dchecks : Bool)
    (m : RasterThreadMerger R) (t : Nat)
    (hne : m.platform_queue_id_ ≠ m.gpu_queue_id_) (ht : 0 < t) :
    ((RasterThreadMerger.MergeWithLease Q dchecks m t).isFatal = true ↔
      RasterThreadMerger.IsMerged m = false ∧
      (Q.Merge m.task_queues_ m.platform_queue_id_ m.gpu_queue_id_).1 = false) ∧
    ((RasterThreadMerger.MergeWithLease Q dchecks m t).isFatal = true →
      (RasterThreadMerger.MergeWithLease Q dchecks m t).state.lease_term_ = m.lease_term_) ∧
    ((RasterThreadMerger.UnMergeNow Q m).isFatal = true ↔
      (Q.Unmerge m.task_queues_ m.platform_queue_id_).1 = false) ∧
    ((RasterThreadMerger.DecrementLease Q dchecks m).isFatal = true ↔
      m.lease_term_ = 1 ∧ (Q.Unmerge m.task_queues_ m.platform_queue_id_).1 = false) := by
  have hsame := RasterThreadMerger.TaskQueuesAreSame_of_ne m hne
  have hmerged := RasterThreadMerger.IsMergedUnSafe_of_ne m hne
  refine ⟨?_, ?_, ?_, ?_⟩
  · by_cases hl : 0 < m.lease_term_
    · simp [RasterThreadMerger.MergeWithLease_of_merged Q dchecks m t hne hl ht, Outcome.isFatal,
        RasterThreadMerger.IsMerged, hmerged, hl]
    · cases hM : (Q.Merge m.task_queues_ m.platform_queue_id_ m.gpu_queue_id_).1 <;>
        simp [RasterThreadMerger.MergeWithLease, hsame, hmerged, hl, ht, hM, Outcome.isFatal,
          RasterThreadMerger.IsMerged]
  · by_cases hl : 0 < m.lease_term_
    · simp [RasterThreadMerger.MergeWithLease_of_merged Q dchecks m t hne hl ht, Outcome.isFatal]
    · cases hM : (Q.Merge m.task_queues_ m.platform_queue_id_ m.gpu_queue_id_).1 <;>
        simp [RasterThreadMerger.MergeWithLease, hsame, hmerged, hl, ht, hM, Outcome.isFatal,
          Outcome.state]
  · cases hU : (Q.Unmerge m.task_queues_ m.platform_queue_id_).1 <;>
      simp [RasterThreadMerger.UnMergeNow, hsame, hU, Outcome.isFatal]
  · rcases lt_trichotomy m.lease_term_ 1 with hlt | heq | hgt
    · have hne1 : m.lease_term_ ≠ 1 := by omega
      simp [RasterThreadMerger.DecrementLease_of_not_pos Q dchecks m hne (by omega),
        Outcome.isFatal, hne1]
    · rw [RasterThreadMerger.DecrementLease_of_eq_one Q dchecks m hne heq]
      cases hU : (Q.Unmerge m.task_queues_ m.platform_queue_id_).1 <;>
        simp [Outcome.isFatal, heq]
    · have hne1 : m.lease_term_ ≠ 1 := by omega
      simp [RasterThreadMerger.DecrementLease_of_one_lt Q dchecks m hne hgt,
        Outcome.isFatal, hne1]

/-- Instance of C18: the registry refuses the merge that a fresh merger asks for. -/
theorem C18_fatal_exactly_on_registry_failure_witness :
    RasterThreadMerger.IsMerged { freshMerger with task_queues_ := true } = false ∧
    (RasterThreadMerger.MergeWithLease (flagQueues false false) true
      { freshMerger with task_queues_ := true } 3).isFatal = true ∧
    (RasterThreadMerger.MergeWithLease (flagQueues false false) true
      { freshMerger with task_queues_ := true } 3).state.lease_term_ = kLeaseNotSet :=
  ⟨by decide,
    (C18_fatal_exactly_on_registry_failure (flagQueues false false) true
      { freshMerger with task_queues_ := true } 3 (by decide) (by decide)).1.mpr
      ⟨by decide, by decide⟩,
    (C18_fatal_exactly_on_registry_failure (flagQueues false false) true
      { freshMerger with task_queues_ := true } 3 (by decide) (by decide)).2.1 (by decide)⟩

/-- A coordinator that was never merged is left alone by `ExtendLeaseTo` in a build
without `FML_DCHECK`: the guard `lease_term_ != kLeaseNotSet` stops the write. -/
theorem RasterThreadMerger.ExtendLeaseTo_of_lease_not_set (m : RasterThreadMerger R) (t : Nat)
    (hl : m.lease_term_ = kLeaseNotSet) :
    RasterThreadMerger.ExtendLeaseTo false m t = .ok () m := by
  unfold RasterThreadMerger.ExtendLeaseTo
  split
  · rfl
  · simp [hl]

/-- C17, evaluated where it fails: in a build without `FML_DCHECK`, a merger whose lease
has run out (`MergeWithLease(1)`, then `DecrementLease()`) has lease `0` and is not
merged; `ExtendLeaseTo(1)` then returns with the lease `1`, so `IsMerged()` is true,
although no `Merge` was issued and the registry still has the queues apart. -/
theorem C17_extend_lease_merges_at_lease_zero :
    run (flagQueues true false) false [Op.MergeWithLease 1, Op.DecrementLease] freshMerger =
      .ok [none, some .kUnmergedNow] retiredMerger ∧
    RasterThreadMerger.IsMerged retiredMerger = false ∧
    RasterThreadMerger.ExtendLeaseTo false retiredMerger 1 =
      .ok () { retiredMerger with lease_term_ := 1 } ∧
    RasterThreadMerger.IsMerged { retiredMerger with lease_term_ := 1 } = true ∧
    ({ retiredMerger with lease_term_ := 1 } : RasterThreadMerger Bool).task_queues_ = false := by
  decide

/-- With `FML_DCHECK` active, a call with terms in range that returns from a state in
which registry and lease agree returns in such a state; and the build without
`FML_DCHECK` then does the same. -/
theorem step_preserves_registryAgrees (mergeAgain unmergeAgain : Bool)
    (m : RasterThreadMerger Bool) (op : Op) (ha : registryAgrees m)
    (ht : termInRange op = true) (v : Option RasterThreadStatus) (m1 : RasterThreadMerger Bool)
    (hstep : step (flagQueues mergeAgain unmergeAgain) true m op = .ok v m1) :
    registryAgrees m1 ∧ step (flagQueues mergeAgain unmergeAgain) false m op = .ok v m1 := by
  obtain ⟨hne, hflag⟩ := ha
  have hsame := RasterThreadMerger.TaskQueuesAreSame_of_ne m hne
  have hmerged := RasterThreadMerger.IsMergedUnSafe_of_ne m hne
  have hfalse : ¬ 0 < m.lease_term_ → m.task_queues_ = false := by
    intro hl
    cases h : m.task_queues_
    · rfl
    · exact absurd (hflag.mp h) hl
  cases op with
  | MergeWithLease t =>
    simp only [termInRange, Bool.and_eq_true, decide_eq_true_eq] at ht
    obtain ⟨ht1, htmax⟩ := ht
    have htpos : 0 < t := ht1
    have htint : (0 : Int) < (t : Int) := by exact_mod_cast htpos
    by_cases hl : 0 < m.lease_term_
    · rw [step, RasterThreadMerger.MergeWithLease_of_merged _ true m t hne hl htpos] at hstep
      rw [step, RasterThreadMerger.MergeWithLease_of_merged _ false m t hne hl htpos]
      cases hstep
      exact ⟨⟨hne, hflag⟩, rfl⟩
    · have hM : ((flagQueues mergeAgain unmergeAgain).Merge m.task_queues_ m.platform_queue_id_
          m.gpu_queue_id_).1 = true := by
        simp [flagQueues, hfalse hl]
      rw [step, RasterThreadMerger.MergeWithLease_of_unmerged _ true m t hne hl ht1 htmax hM]
        at hstep
      rw [step, RasterThreadMerger.MergeWithLease_of_unmerged _ false m t hne hl ht1 htmax hM]
      cases hstep
      refine ⟨⟨hne, ?_⟩, rfl⟩
      simp [flagQueues, hfalse hl, htint]
  | UnMergeNow =>
    refine ⟨?_, hstep⟩
    simp only [step, RasterThreadMerger.UnMergeNow, hsame] at hstep
    by_cases hU : ((flagQueues mergeAgain unmergeAgain).Unmerge m.task_queues_
        m.platform_queue_id_).1 = true
    · simp only [hU] at hstep
      cases hstep
      refine ⟨hne, ?_⟩
      cases hq : m.task_queues_ <;> simp [flagQueues, hq]
    · simp [hU] at hstep
  | ExtendLeaseTo t =>
    by_cases hl : 0 < m.lease_term_
    · rw [step, RasterThreadMerger.ExtendLeaseTo_of_merged true m t hne hl] at hstep
      rw [step, RasterThreadMerger.ExtendLeaseTo_of_merged false m t hne hl]
      cases hstep
      have hpos : 0 < max m.lease_term_ (static_cast_int t) := lt_max_of_lt_left hl
      exact ⟨⟨hne, ⟨fun _ => hpos, fun _ => hflag.mpr hl⟩⟩, rfl⟩
    · simp [step, RasterThreadMerger.ExtendLeaseTo, hsame, hmerged, hl] at hstep
  | DecrementLease =>
    rcases lt_trichotomy m.lease_term_ 1 with hlt | heq | hgt
    · rw [step, RasterThreadMerger.DecrementLease_of_not_pos _ true m hne (by omega)] at hstep
      rw [step, RasterThreadMerger.DecrementLease_of_not_pos _ false m hne (by omega)]
      cases hstep
      exact ⟨⟨hne, hflag⟩, rfl⟩
    · have hq : m.task_queues_ = true := hflag.mpr (by omega)
      rw [step, RasterThreadMerger.DecrementLease_of_eq_one _ true m hne heq] at hstep
      rw [step, RasterThreadMerger.DecrementLease_of_eq_one _ false m hne heq]
      simp only [flagQueues, hq, if_true] at hstep ⊢
      cases hstep
      refine ⟨⟨hne, ?_⟩, rfl⟩
      simp
    · rw [step, RasterThreadMerger.DecrementLease_of_one_lt _ true m hne hgt] at hstep
      rw [step, RasterThreadMerger.DecrementLease_of_one_lt _ false m hne hgt]
      cases hstep
      have hpos : 0 < m.lease_term_ - 1 := by omega
      exact ⟨⟨hne, ⟨fun _ => hpos, fun _ => hflag.mpr (by omega)⟩⟩, rfl⟩

/-- A run with terms in range that returns with `FML_DCHECK` active ends in a state in
which registry and lease agree, and the build without `FML_DCHECK` runs the same way. -/
theorem run_preserves_registryAgrees (mergeAgain unmergeAgain : Bool) (ops : List Op) :
    ∀ (m s : RasterThreadMerger Bool) (vs : List (Option RasterThreadStatus)),
      registryAgrees m → (∀ op ∈ ops, termInRange op = true) →
      run (flagQueues mergeAgain unmergeAgain) true ops m = .ok vs s →
      registryAgrees s ∧ run (flagQueues mergeAgain unmergeAgain) false ops m = .ok vs s := by
  induction ops with
  | nil =>
    intro m s vs ha _ hrun
    simp only [run] at hrun
    cases hrun
    exact ⟨ha, rfl⟩
  | cons op ops ih =>
    intro m s vs ha hterms hrun
    have hop : termInRange op = true := hterms op (List.mem_cons_self op ops)
    have hrest : ∀ o ∈ ops, termInRange o = true :=
      fun o ho => hterms o (List.mem_cons_of_mem op ho)
    rw [run] at hrun
    cases hstep : step (flagQueues mergeAgain unmergeAgain) true m op with
    | fatal f m1 => simp [hstep] at hrun
    | ok v m1 =>
      rw [hstep] at hrun
      dsimp only at hrun
      obtain ⟨ha1, hstep2⟩ :=
        step_preserves_registryAgrees mergeAgain unmergeAgain m op ha hop v m1 hstep
      cases htail : run (flagQueues mergeAgain unmergeAgain) true ops m1 with
      | fatal f m2 => simp [htail] at hrun
      | ok vs1 m2 =>
        rw [htail] at hrun
        dsimp only at hrun
        cases hrun
        obtain ⟨ha2, htail2⟩ := ih m1 s vs1 ha1 hrest htail
        refine ⟨ha2, ?_⟩
        rw [run, hstep2]
        dsimp only
        rw [htail2]

/-- What holds of the agreement between registry and lease: with distinct queues and
the registry a fused/not-fused flag that starts not fused, take any sequence of
`MergeWithLease`, `ExtendLeaseTo`, `DecrementLease` and `UnMergeNow` calls from
construction with terms between `1` and `INT_MAX` which runs to its end with every
`FML_CHECK` and `FML_DCHECK` evaluated.  In the state it ends in, the registry has the
queues fused if and only if `lease_term_ > 0`, that is if and only if `IsMerged()` is
true.  On such a sequence the build without `FML_DCHECK` returns the same values and
ends in the same state. -/
theorem registry_fused_iff_lease_positive_of_checked_run (mergeAgain unmergeAgain : Bool)
    (platform raster : TaskQueueId) (ops : List Op)
    (vs : List (Option RasterThreadStatus)) (s : RasterThreadMerger Bool)
    (hne : platform ≠ raster) (hterms : ∀ op ∈ ops, termInRange op = true)
    (hrun : run (flagQueues mergeAgain unmergeAgain) true ops
      (RasterThreadMerger.construct (flagQueues mergeAgain unmergeAgain) false
        platform raster).state = .ok vs s) :
    (RasterThreadMerger.construct (flagQueues mergeAgain unmergeAgain) false
      platform raster).isFatal = false ∧
    (s.task_queues_ = true ↔ 0 < s.lease_term_) ∧
    (s.task_queues_ = true ↔ RasterThreadMerger.IsMerged s = true) ∧
    run (flagQueues mergeAgain unmergeAgain) false ops
      (RasterThreadMerger.construct (flagQueues mergeAgain unmergeAgain) false
        platform raster).state = .ok vs s := by
  have hcons : RasterThreadMerger.construct (flagQueues mergeAgain unmergeAgain) false
      platform raster =
      .ok ()
        { platform_queue_id_ := platform
          gpu_queue_id_ := raster
          task_queues_ := false
          lease_term_ := kLeaseNotSet
          registry_calls := []
          notified := 0 } := by
    simp [RasterThreadMerger.construct, flagQueues]
  rw [hcons] at hrun ⊢
  have h0 : registryAgrees
      ({ platform_queue_id_ := platform
         gpu_queue_id_ := raster
         task_queues_ := false
         lease_term_ := kLeaseNotSet
         registry_calls := []
         notified := 0 } : RasterThreadMerger Bool) := by
    refine ⟨hne, ?_⟩
    simp [kLeaseNotSet]
  obtain ⟨⟨hnes, hflag⟩, hrel⟩ :=
    run_preserves_registryAgrees mergeAgain unmergeAgain ops _ s vs h0 hterms hrun
  refine ⟨rfl, hflag, ?_, hrel⟩
  rw [hflag]
  simp [RasterThreadMerger.IsMerged, RasterThreadMerger.IsMergedUnSafe_of_ne s hnes]

/-- An instance: merge for two units, extend to three, retire one, force the unmerge,
and force it once more (the registry tolerating the repeated request). -/
theorem registry_fused_iff_lease_positive_of_checked_run_instance :
    (retiredMerger.task_queues_ = true ↔ 0 < retiredMerger.lease_term_) ∧
    run (flagQueues true true) false
      [Op.MergeWithLease 2, Op.ExtendLeaseTo 3, Op.DecrementLease, Op.UnMergeNow, Op.UnMergeNow]
      (RasterThreadMerger.construct (flagQueues true true) false 1 2).state =
      .ok [none, none, some .kRemainsMerged, none, none]
        { retiredMerger with
          registry_calls := [(RegistryCall.Merge 1 2, false), (RegistryCall.Unmerge 1, true),
            (RegistryCall.Unmerge 1, false)] } :=
  ⟨(registry_fused_iff_lease_positive_of_checked_run true true 1 2
      [Op.MergeWithLease 2, Op.ExtendLeaseTo 3, Op.DecrementLease, Op.UnMergeNow, Op.UnMergeNow]
      [none, none, some .kRemainsMerged, none, none]
      { retiredMerger with
        registry_calls := [(RegistryCall.Merge 1 2, false), (RegistryCall.Unmerge 1, true),
          (RegistryCall.Unmerge 1, false)] }
      (by decide) (by decide) (by decide)).2.1,
    (registry_fused_iff_lease_positive_of_checked_run true true 1 2
      [Op.MergeWithLease 2, Op.ExtendLeaseTo 3, Op.DecrementLease, Op.UnMergeNow, Op.UnMergeNow]
      [none, none, some .kRemainsMerged, none, none]
      { retiredMerger with
        registry_calls := [(RegistryCall.Merge 1 2, false), (RegistryCall.Unmerge 1, true),
          (RegistryCall.Unmerge 1, false)] }
      (by decide) (by decide) (by decide)).2.2.2⟩

/-- C14, evaluated where it fails: in a build without `FML_DCHECK`, the calls
`MergeWithLease(1)`, `DecrementLease()`, `ExtendLeaseTo(1)` from construction, with
the registry flag starting not fused, have their terms between `1` and `INT_MAX` and
all return, no assertion firing; in the state they end in `lease_term_` is `1` and
`IsMerged()` is true while the registry has the queues not fused. -/
theorem C14_lease_positive_while_registry_not_fused :
    RasterThreadMerger.construct (flagQueues true false) false 1 2 = .ok () freshMerger ∧
    (∀ op ∈ [Op.MergeWithLease 1, Op.DecrementLease, Op.ExtendLeaseTo 1],
      termInRange op = true) ∧
    run (flagQueues true false) false
        [Op.MergeWithLease 1, Op.DecrementLease, Op.ExtendLeaseTo 1] freshMerger =
      .ok [none, some .kUnmergedNow, none] { retiredMerger with lease_term_ := 1 } ∧
    RasterThreadMerger.IsMerged { retiredMerger with lease_term_ := 1 } = true ∧
    ¬ (({ retiredMerger with lease_term_ := 1 } : RasterThreadMerger Bool).task_queues_ = true ↔
        0 < ({ retiredMerger with lease_term_ := 1 } : RasterThreadMerger Bool).lease_term_) := by
  decide

/-- Running two lists of calls one after the other: when the first list returns, the
run of both ends where the run of the second list from there ends. -/
theorem run_append_state (Q : MessageLoopTaskQueues R) (dchecks : Bool) (xs ys : List Op) :
    ∀ (m m1 : RasterThreadMerger R) (vs : List (Option RasterThreadStatus)),
      run Q dchecks xs m = .ok vs m1 →
      (run Q dchecks (xs ++ ys) m).state = (run Q dchecks ys m1).state := by
  induction xs with
  | nil =>
    intro m m1 vs h
    simp only [run] at h
    cases h
    rfl
  | cons x xs ih =>
    intro m m1 vs h
    rw [run] at h
    cases hstep : step Q dchecks m x with
    | fatal f m2 => simp [hstep] at h
    | ok v m2 =>
      rw [hstep] at h
      dsimp only at h
      cases htail : run Q dchecks xs m2 with
      | fatal f m3 => simp [htail] at h
      | ok vs1 m3 =>
        rw [htail] at h
        dsimp only at h
        cases h
        rw [List.cons_append, run_state_of_step_ok Q dchecks x (xs ++ ys) m m2 v hstep]
        exact ih m2 m1 vs1 htail

/-- When the wait ends, the predicate holds, and the object is as the calls of the other
threads up to that moment left it. -/
theorem waitLoop_returned (Q : MessageLoopTaskQueues R) (dchecks : Bool)
    (others : List (List Op)) :
    ∀ m s : RasterThreadMerger R, waitLoop Q dchecks m others = .returned s →
      RasterThreadMerger.IsMergedUnSafe s = true ∧
      ∃ k : Nat, (run Q dchecks (others.take k).flatten m).state = s := by
  induction others with
  | nil =>
    intro m s h
    by_cases hm : RasterThreadMerger.IsMergedUnSafe m = true
    · simp only [waitLoop, hm, if_true] at h
      cases h
      exact ⟨hm, 0, rfl⟩
    · simp [waitLoop, hm] at h
  | cons calls rest ih =>
    intro m s h
    by_cases hm : RasterThreadMerger.IsMergedUnSafe m = true
    · simp only [waitLoop, hm, if_true] at h
      cases h
      exact ⟨hm, 0, rfl⟩
    · simp only [waitLoop, hm] at h
      cases hrun : run Q dchecks calls m with
      | fatal f m1 => simp [hrun] at h
      | ok vs m1 =>
        rw [hrun] at h
        obtain ⟨hs, k, hk⟩ := ih m1 s h
        refine ⟨hs, k + 1, ?_⟩
        rw [List.take_succ_cons, List.flatten_cons,
          run_append_state Q dchecks calls _ m m1 vs hrun]
        exact hk

/-- The wait itself has no assertion. -/
theorem waitLoop_ne_fatal (Q : MessageLoopTaskQueues R) (dchecks : Bool)
    (others : List (List Op)) :
    ∀ (m s : RasterThreadMerger R) (f : Fatal), waitLoop Q dchecks m others ≠ .fatal f s := by
  induction others with
  | nil =>
    intro m s f
    simp only [waitLoop]
    split <;> simp
  | cons calls rest ih =>
    intro m s f
    simp only [waitLoop]
    split
    · simp
    · cases hrun : run Q dchecks calls m with
      | fatal g m1 => simp
      | ok vs m1 => exact ih m1 s f

/-- C11: `WaitUntilMerged()` is aborted by its own assertion if and only if the platform
id differs from the raster id and the calling thread's current queue is not the
platform queue, and then nothing has changed; when the two ids are equal it returns at
once, from any thread, with the object untouched; and whenever it returns, `IsMerged()`
is true and the object, lease and registry calls included, is exactly as the calls
made by the other threads up to the end of the wait left it: the call itself writes
nothing and calls nothing. -/
theorem C11_wait_until_merged (Q : MessageLoopTaskQueues R) (dchecks : Bool)
    (m : RasterThreadMerger R) (current : TaskQueueId) (others : List (List Op)) :
    ((∃ f s, RasterThreadMerger.WaitUntilMerged Q dchecks m current others = .fatal f s) ↔
      (m.platform_queue_id_ ≠ m.gpu_queue_id_ ∧ current ≠ m.platform_queue_id_)) ∧
    (∀ f s, RasterThreadMerger.WaitUntilMerged Q dchecks m current others = .fatal f s →
      f = .wait_off_platform_thread ∧ s = m) ∧
    (m.platform_queue_id_ = m.gpu_queue_id_ →
      RasterThreadMerger.WaitUntilMerged Q dchecks m current others = .returned m) ∧
    (∀ s, RasterThreadMerger.WaitUntilMerged Q dchecks m current others = .returned s →
      RasterThreadMerger.IsMerged s = true ∧
      ∃ k : Nat, (run Q dchecks (others.take k).flatten m).state = s) := by
  by_cases hsame : m.platform_queue_id_ = m.gpu_queue_id_
  · have h : RasterThreadMerger.TaskQueuesAreSame m = true := by
      simp [RasterThreadMerger.TaskQueuesAreSame, hsame]
    have hrun : RasterThreadMerger.WaitUntilMerged Q dchecks m current others = .returned m := by
      simp [RasterThreadMerger.WaitUntilMerged, h]
    rw [hrun]
    refine ⟨⟨?_, fun hh => absurd hsame hh.1⟩, ?_, fun _ => rfl, ?_⟩
    · rintro ⟨f, s, hfs⟩
      cases hfs
    · intro f s hfs
      cases hfs
    · intro s hs
      cases hs
      refine ⟨?_, 0, rfl⟩
      simp [RasterThreadMerger.IsMerged, RasterThreadMerger.IsMergedUnSafe, h]
  · have h := RasterThreadMerger.TaskQueuesAreSame_of_ne m hsame
    by_cases hc : current = m.platform_queue_id_
    · have hrun : RasterThreadMerger.WaitUntilMerged Q dchecks m current others =
          waitLoop Q dchecks m others := by
        simp [RasterThreadMerger.WaitUntilMerged, h, RasterThreadMerger.IsOnPlatformThread, hc]
      rw [hrun]
      refine ⟨⟨?_, fun hh => absurd hc hh.2⟩, ?_, fun hh => absurd hh hsame, ?_⟩
      · rintro ⟨f, s, hfs⟩
        exact absurd hfs (waitLoop_ne_fatal Q dchecks others m s f)
      · intro f s hfs
        exact absurd hfs (waitLoop_ne_fatal Q dchecks others m s f)
      · intro s hs
        exact waitLoop_returned Q dchecks others m s hs
    · have hrun : RasterThreadMerger.WaitUntilMerged Q dchecks m current others =
          .fatal .wait_off_platform_thread m := by
        simp [RasterThreadMerger.WaitUntilMerged, h, RasterThreadMerger.IsOnPlatformThread, hc]
      rw [hrun]
      refine ⟨⟨fun _ => ⟨hsame, hc⟩, fun _ => ⟨_, _, rfl⟩⟩, ?_, fun hh => absurd hh hsame, ?_⟩
      · intro f s hfs
        cases hfs
        exact ⟨rfl, rfl⟩
      · intro s hs
        cases hs

/-- Instance of C11: the platform thread waits on a fresh merger; another thread
decrements, then merges for two units and retires one of them; the wait then ends
with a lease of `1`. -/
theorem C11_wait_until_merged_witness :
    RasterThreadMerger.WaitUntilMerged (flagQueues true false) true freshMerger 1
        [[Op.DecrementLease], [Op.MergeWithLease 2, Op.DecrementLease], [Op.UnMergeNow]] =
      .returned (mergedMerger 1) ∧
    RasterThreadMerger.IsMerged (mergedMerger 1) = true :=
  ⟨by decide,
    ((C11_wait_until_merged (flagQueues true false) true freshMerger 1
      [[Op.DecrementLease], [Op.MergeWithLease 2, Op.DecrementLease], [Op.UnMergeNow]]).2.2.2
      (mergedMerger 1) (by decide)).1⟩

end fml
